import Mathlib

/-!
Verification development for Image-WeightedCollage.py: a shallow embedding of
the node model, the initial downscaler, the overlap rescaler, the force-field
solver, the relaxation driver, the bounding/export step and the main driver,
together with theorems settling the stated correctness claims.

Modelling conventions:
* Python floats are modelled exactly: scale factors live in `ℚ` (every
  operation on them in the source is exact rational arithmetic), positions
  live in `ℝ` because the force solver uses `math.sqrt`/`math.cos`/`math.sin`.
* Python `int(x)` truncates toward zero; `ratTrunc`/`pyIntR` mirror that.
* Pixel decoding/encoding and compositing are external collaborators; nodes
  carry geometry only, and `compose_final_image` returns the canvas
  dimensions handed to the external compositor.
* Code that can raise (`nodes[0]` on an empty list, `os.listdir` on a missing
  directory, division by a zero canvas dimension) returns `Except RunError`.
-/

set_option maxHeartbeats 1000000

namespace Collage

/- Parameter block of the source. -/

def TARGET_SIZE : ℤ × ℤ := (4096, 4096)
noncomputable def MARGIN_DISTANCE : ℝ := 8
noncomputable def INITIAL_RADIUS : ℝ := 512
def MAX_INITIAL_DIM : ℤ := 512
def RANDOM_COUNT : ℕ := 25
def SCALE_FACTOR : ℚ := 19/20
def MAX_SCALE_DOWN : ℚ := 3/4
def MAX_RESCALE_ATTEMPTS : ℕ := 16
noncomputable def MAX_MOVEMENT_PER_ITER : ℝ := 128
noncomputable def REPULSION_STRENGTH : ℝ := 10
noncomputable def ATTRACTION_RATE : ℝ × ℝ := (1/10000, 1/1000)
noncomputable def ATTRACTION_WEIGHT : ℝ := 1/10000
def RELAXATION_ITERATIONS : ℕ := 4096
def CENTER : ℤ × ℤ := (TARGET_SIZE.1 / 2, TARGET_SIZE.2 / 2)

/-- Sort modes of the source; the configured value is `RANDOM`. -/
inductive SortType
  | noSort
  | area
  | width
  | height
  | random
deriving DecidableEq

def SORT_TYPE : SortType := SortType.random

/-- Errors the Python process can die with on the modelled paths:
`ioError` for `os.listdir` on a missing directory (FileNotFoundError is an
OSError alias of IOError), `indexError` for `nodes[0]` on an empty list,
`zeroDivisionError` for `TARGET_SIZE[0]/width` with `width = 0`,
`overflowError` for `int(float(inf))` on an empty layout. -/
inductive RunError
  | ioError
  | indexError
  | zeroDivisionError
  | overflowError
deriving DecidableEq

/-- Per-image mutable placement state (the node dictionary of the source).
`load_images` does not give nodes `x`/`y` keys; they are first written by
`place_initial` before ever being read, so the model initialises them to 0. -/
structure Node where
  orig_width : ℤ
  orig_height : ℤ
  width : ℤ
  height : ℤ
  scale : ℚ
  x : ℝ
  y : ℝ
  fixed : Bool

/-- Python `int()` on a nonnegative-or-negative rational: truncation toward zero. -/
def ratTrunc (q : ℚ) : ℤ := if 0 ≤ q then ⌊q⌋ else -⌊-q⌋

/-- Python `int()` on a real (float) value: truncation toward zero. -/
noncomputable def pyIntR (r : ℝ) : ℤ := if 0 ≤ r then ⌊r⌋ else -⌊-r⌋

/-- One freshly loaded node of an image of size `w × h`. -/
def mkLoadNode (w h : ℤ) : Node :=
  { orig_width := w, orig_height := h, width := w, height := h,
    scale := 1, x := 0, y := 0, fixed := false }

/-- `load_images`: one node per decoded image, geometry only. -/
def load_images (sizes : List (ℤ × ℤ)) : List Node :=
  sizes.map (fun p => mkLoadNode p.1 p.2)

/-- `initial_rescale` body for one node. -/
def initialRescaleNode (n : Node) : Node :=
  if MAX_INITIAL_DIM < n.width ∨ MAX_INITIAL_DIM < n.height then
    let scale_w : ℚ := (MAX_INITIAL_DIM : ℚ) / (n.width : ℚ)
    let scale_h : ℚ := (MAX_INITIAL_DIM : ℚ) / (n.height : ℚ)
    let scale := min scale_w scale_h
    { n with scale := scale,
             width := ratTrunc ((n.orig_width : ℚ) * scale),
             height := ratTrunc ((n.orig_height : ℚ) * scale) }
  else n

/-- `initial_rescale`: rescale large images so none exceeds `MAX_INITIAL_DIM`. -/
def initial_rescale (ns : List Node) : List Node := ns.map initialRescaleNode

/- Ordering strategy. -/

def insertDesc (key : Node → ℤ) (n : Node) : List Node → List Node
  | [] => [n]
  | m :: ms => if key m < key n then n :: m :: ms else m :: insertDesc key n ms

/-- Stable descending sort by a key, as Python `sorted(reverse=True)`. -/
def sortDesc (key : Node → ℤ) (ns : List Node) : List Node :=
  ns.foldr (insertDesc key) []

def sort_by_area : List Node → List Node := sortDesc (fun n => n.width * n.height)
def sort_by_width : List Node → List Node := sortDesc (fun n => n.width)
def sort_by_height : List Node → List Node := sortDesc (fun n => n.height)

/-- The sort-or-randomise step of `__main__`; `random.sample(nodes, len(nodes))`
is modelled by the permutation parameter `shuffleT`. -/
def orderNodes (shuffleT : List Node → List Node) (ns : List Node) : List Node :=
  match SORT_TYPE with
  | SortType.area => sort_by_area ns
  | SortType.width => sort_by_width ns
  | SortType.height => sort_by_height ns
  | SortType.random => shuffleT ns
  | SortType.noSort => ns

/- Geometry. -/

structure BBox where
  x1 : ℝ
  y1 : ℝ
  x2 : ℝ
  y2 : ℝ

/-- `bounding_box`: axis-aligned box around a node's centre position. -/
noncomputable def bounding_box (n : Node) : BBox :=
  { x1 := n.x - (n.width : ℝ)/2, y1 := n.y - (n.height : ℝ)/2,
    x2 := n.x + (n.width : ℝ)/2, y2 := n.y + (n.height : ℝ)/2 }

/-- `boxes_overlap`: margined overlap test of two boxes. -/
def boxes_overlap (b1 b2 : BBox) (margin : ℝ) : Prop :=
  ¬ (b1.x2 + margin < b2.x1 ∨ b2.x2 + margin < b1.x1 ∨
     b1.y2 + margin < b2.y1 ∨ b2.y2 + margin < b1.y1)

/- Overlap rescaler. -/

/-- The in-place mutation applied to the smaller node of an overlapping pair. -/
def shrinkNode (n : Node) (s : ℚ) : Node :=
  { n with scale := s,
           width := ratTrunc ((n.orig_width : ℚ) * s),
           height := ratTrunc ((n.orig_height : ℚ) * s) }

/-- The lexicographic pair traversal `for i ...: for j ...:` of `attempt_rescale`. -/
def pairIdx (n : ℕ) : List (ℕ × ℕ) :=
  (List.range n).flatMap (fun i => (List.range n).map (fun j => (i, j)))

/- One inner-loop body of `attempt_rescale`: pairs with `i ≥ j` are skipped,
the boxes are rebuilt from the current state, the currently smaller node is
shrunk by `SCALE_FACTOR` unless that would drop its scale below
`MAX_SCALE_DOWN`. -/
open Classical in
noncomputable def rescaleStep (st : List Node × Bool) (ij : ℕ × ℕ) : List Node × Bool :=
  if ij.2 ≤ ij.1 then st
  else
    match st.1[ij.1]?, st.1[ij.2]? with
    | some n1, some n2 =>
      if boxes_overlap (bounding_box n1) (bounding_box n2) MARGIN_DISTANCE then
        let k := if n1.width * n1.height < n2.width * n2.height then ij.1 else ij.2
        let smaller := if n1.width * n1.height < n2.width * n2.height then n1 else n2
        let new_scale := smaller.scale * SCALE_FACTOR
        if MAX_SCALE_DOWN ≤ new_scale then (st.1.set k (shrinkNode smaller new_scale), true)
        else st
      else st
    | _, _ => st

/-- `attempt_rescale`: one sweep over all pairs, reporting whether anything changed. -/
noncomputable def attempt_rescale (ns : List Node) : List Node × Bool :=
  (pairIdx ns.length).foldl rescaleStep (ns, false)

/- Force field solver. -/

/- One inner-loop body of the repulsion accumulation of `apply_forces` for
node `n1` at index `i`: the node itself is skipped, any other node whose
margined box overlaps contributes a vector away from it. -/
open Classical in
noncomputable def repulseStep (ns : List Node) (i : ℕ) (n1 : Node) (fc : ℝ × ℝ) (j : ℕ) :
    ℝ × ℝ :=
  if i = j then fc
  else
    match ns[j]? with
    | none => fc
    | some n2 =>
      if boxes_overlap (bounding_box n1) (bounding_box n2) MARGIN_DISTANCE then
        let dx := n1.x - n2.x
        let dy := n1.y - n2.y
        let dist := Real.sqrt (dx*dx + dy*dy) + 1/10
        let factor := REPULSION_STRENGTH * (1/dist)
        (fc.1 + dx * factor, fc.2 + dy * factor)
      else fc

/-- Repulsion accumulation of `apply_forces` for node `n1` at index `i`. -/
noncomputable def repulsion (ns : List Node) (i : ℕ) (n1 : Node) : ℝ × ℝ :=
  (List.range ns.length).foldl (repulseStep ns i n1) (0, 0)

/-- Total (repulsion + centre attraction) force on node `n1` at index `i`. -/
noncomputable def nodeForce (ns : List Node) (i : ℕ) (n1 : Node) : ℝ × ℝ :=
  let b1 := bounding_box n1
  let scale := ((b1.x2 - b1.x1) * (b1.y2 - b1.y1)) / (TARGET_SIZE.1 : ℝ)
  let rep := repulsion ns i n1
  (rep.1 + ((CENTER.1 : ℝ) - n1.x) * (ATTRACTION_RATE.1 + scale * ATTRACTION_WEIGHT),
   rep.2 + ((CENTER.2 : ℝ) - n1.y) * (ATTRACTION_RATE.2 + scale * ATTRACTION_WEIGHT))

/- Movement limiting: rescale the force vector down to `MAX_MOVEMENT_PER_ITER`. -/
open Classical in
noncomputable def clampForce (f : ℝ × ℝ) : ℝ × ℝ :=
  let dist_move := Real.sqrt (f.1*f.1 + f.2*f.2)
  if MAX_MOVEMENT_PER_ITER < dist_move then
    let s := MAX_MOVEMENT_PER_ITER / dist_move
    (f.1 * s, f.2 * s)
  else f

/-- Position update of one non-anchored node, reading the state `ns`. -/
noncomputable def moveNode (ns : List Node) (i : ℕ) (n1 : Node) : Node :=
  let f := clampForce (nodeForce ns i n1)
  { n1 with x := n1.x + f.1, y := n1.y + f.2 }

/-- One outer-loop body of `apply_forces`: fixed nodes are skipped, others are
updated in place (later nodes see the update). -/
noncomputable def forceStep (cur : List Node) (i : ℕ) : List Node :=
  match cur[i]? with
  | none => cur
  | some n1 => if n1.fixed then cur else cur.set i (moveNode cur i n1)

/-- `apply_forces`: one in-place sweep over all nodes. -/
noncomputable def apply_forces (ns : List Node) : List Node :=
  (List.range ns.length).foldl forceStep ns

/-- The snapshot/deferred-write variant of the solver sweep described by the
spec's concurrency note: every node's force is computed from the state at the
start of the sweep and all writes land after the sweep. -/
noncomputable def applyForcesSnapshot (ns : List Node) : List Node :=
  ns.mapIdx (fun i n => if n.fixed then n else moveNode ns i n)

/- Initial placement. -/

/-- `place_initial`: anchor to the canvas centre, the rest on a radial pattern;
`nodes[0]` on an empty list raises. -/
noncomputable def place_initial (ns : List Node) : Except RunError (List Node) :=
  match ns with
  | [] => Except.error RunError.indexError
  | n0 :: rest =>
    let num := (n0 :: rest).length
    let angle_step : ℝ := 6 * Real.pi / ((max 1 (num - 1) : ℕ) : ℝ)
    Except.ok ({ n0 with x := (CENTER.1 : ℝ), y := (CENTER.2 : ℝ), fixed := true } ::
      rest.mapIdx (fun k n =>
        { n with x := (CENTER.1 : ℝ) + INITIAL_RADIUS * Real.cos (angle_step * (k : ℝ)),
                 y := (CENTER.2 : ℝ) + INITIAL_RADIUS * Real.sin (angle_step * (k : ℝ)) }))

/- Relaxation driver. -/

/-- The bounded inner rescale loop: up to `fuel` sweeps, stopping after the
first sweep that reports no change. -/
noncomputable def rescaleLoop : ℕ → List Node → List Node
  | 0, ns => ns
  | f+1, ns =>
    let r := attempt_rescale ns
    if r.2 then rescaleLoop f r.1 else r.1

/-- One iteration of `run_relaxation`: a force sweep, plus the rescale loop on
every 20th iteration. -/
noncomputable def relaxStep (ns : List Node) (it : ℕ) : List Node :=
  let ns1 := apply_forces ns
  if it % 20 = 0 then rescaleLoop MAX_RESCALE_ATTEMPTS ns1 else ns1

/-- `run_relaxation`: the fixed-count iteration driver. -/
noncomputable def run_relaxation (ns : List Node) : List Node :=
  (List.range RELAXATION_ITERATIONS).foldl relaxStep ns

/- Bounding / export. -/

/-- Tight canvas width before fitting: `int(max_x - min_x)` over all boxes. -/
noncomputable def canvasW (n : Node) (rest : List Node) : ℤ :=
  pyIntR ((rest.foldl (fun a m => max a (bounding_box m).x2) (bounding_box n).x2) -
          (rest.foldl (fun a m => min a (bounding_box m).x1) (bounding_box n).x1))

/-- Tight canvas height before fitting: `int(max_y - min_y)` over all boxes. -/
noncomputable def canvasH (n : Node) (rest : List Node) : ℤ :=
  pyIntR ((rest.foldl (fun a m => max a (bounding_box m).y2) (bounding_box n).y2) -
          (rest.foldl (fun a m => min a (bounding_box m).y1) (bounding_box n).y1))

/-- The fitting factor `min(TARGET_SIZE[0]/width, TARGET_SIZE[1]/height)`. -/
noncomputable def scaleToTarget (width height : ℤ) : ℝ :=
  min ((TARGET_SIZE.1 : ℝ) / (width : ℝ)) ((TARGET_SIZE.2 : ℝ) / (height : ℝ))

/- `compose_final_image`, geometry part: the exported canvas dimensions.
On an empty layout the `float('inf')` seeds reach `int()` and raise; a zero
tight dimension raises in `TARGET_SIZE[0]/width`. Pixel resampling and
compositing are the external collaborator and carry no geometry. -/
open Classical in
noncomputable def compose_final_image (ns : List Node) : Except RunError (ℤ × ℤ) :=
  match ns with
  | [] => Except.error RunError.overflowError
  | n :: rest =>
    let width := canvasW n rest
    let height := canvasH n rest
    if width = 0 ∨ height = 0 then Except.error RunError.zeroDivisionError
    else
      if scaleToTarget width height < 1 then
        Except.ok (pyIntR ((width : ℝ) * scaleToTarget width height),
                   pyIntR ((height : ℝ) * scaleToTarget width height))
      else Except.ok (width, height)

/- Main driver. -/

/-- One generation: load, downscale, order, place, relax. -/
noncomputable def runTrial (shuffleT : List Node → List Node) (sizes : List (ℤ × ℤ)) :
    Except RunError (List Node) :=
  match place_initial (orderNodes shuffleT (initial_rescale (load_images sizes))) with
  | Except.error e => Except.error e
  | Except.ok placed => Except.ok (run_relaxation placed)

/-- The trial loop of `__main__`, trials `t, t+1, ...` with `fuel` remaining;
an uncaught exception aborts the whole run, dropping the remaining trials. -/
noncomputable def runTrials (shuffle : ℕ → List Node → List Node)
    (sizes : List (ℤ × ℤ)) : ℕ → ℕ → Except RunError (List (List Node))
  | _, 0 => Except.ok []
  | t, f+1 =>
    match runTrial (shuffle t) sizes with
    | Except.error e => Except.error e
    | Except.ok out =>
      match runTrials shuffle sizes (t+1) f with
      | Except.error e => Except.error e
      | Except.ok rest => Except.ok (out :: rest)

def trialCount : ℕ := match SORT_TYPE with | SortType.random => RANDOM_COUNT | _ => 1

/-- `__main__`: `listing` is `none` when the input directory is missing
(`os.listdir` raises an IOError), otherwise the sizes of the images whose
file names pass the extension filter. -/
noncomputable def runMain (listing : Option (List (ℤ × ℤ)))
    (shuffle : ℕ → List Node → List Node) : Except RunError (List (List Node)) :=
  match listing with
  | none => Except.error RunError.ioError
  | some sizes => runTrials shuffle sizes 0 trialCount

/-- The dimension invariant the data-model section states for every node,
with Python truncation in place of rounding. -/
def dims_ok (n : Node) : Prop :=
  n.width = ratTrunc ((n.orig_width : ℚ) * n.scale) ∧
  n.height = ratTrunc ((n.orig_height : ℚ) * n.scale)

/- Helper development: per-node effect of the overlap rescaler. -/

/-- The fields the overlap rescaler never touches. -/
def geom (n : Node) : ℝ × ℝ × Bool × ℤ × ℤ :=
  (n.x, n.y, n.fixed, n.orig_width, n.orig_height)

/-- Relation between a node before and after any number of rescale shrinks. -/
def rescaled (n n' : Node) : Prop :=
  geom n' = geom n ∧ n'.scale ≤ n.scale ∧ (n' = n ∨ MAX_SCALE_DOWN ≤ n'.scale) ∧
  (dims_ok n → dims_ok n')

lemma rescaled_refl (n : Node) : rescaled n n := ⟨rfl, le_refl _, Or.inl rfl, id⟩

lemma rescaled_trans {a b c : Node} (h1 : rescaled a b) (h2 : rescaled b c) : rescaled a c := by
  obtain ⟨g1, s1, d1, k1⟩ := h1
  obtain ⟨g2, s2, d2, k2⟩ := h2
  refine ⟨g2.trans g1, s2.trans s1, ?_, fun h => k2 (k1 h)⟩
  rcases d2 with rfl | h2'
  · exact d1
  · exact Or.inr h2'

lemma shrink_dims_ok (n : Node) (s : ℚ) : dims_ok (shrinkNode n s) := ⟨rfl, rfl⟩

lemma scale_pos_of_floor {n : Node} (h : MAX_SCALE_DOWN ≤ n.scale * SCALE_FACTOR) :
    (0:ℚ) < n.scale := by
  norm_num [MAX_SCALE_DOWN, SCALE_FACTOR] at h
  linarith

lemma shrink_scale_lt {n : Node} (h : MAX_SCALE_DOWN ≤ n.scale * SCALE_FACTOR) :
    (shrinkNode n (n.scale * SCALE_FACTOR)).scale < n.scale := by
  have hs := scale_pos_of_floor h
  show n.scale * SCALE_FACTOR < n.scale
  norm_num [SCALE_FACTOR]
  linarith

lemma rescaled_shrink {n : Node} (h : MAX_SCALE_DOWN ≤ n.scale * SCALE_FACTOR) :
    rescaled n (shrinkNode n (n.scale * SCALE_FACTOR)) :=
  ⟨rfl, le_of_lt (shrink_scale_lt h), Or.inr h, fun _ => shrink_dims_ok n _⟩

/-- Complete case analysis of one pair step of `attempt_rescale`: it is either
the identity, or it shrinks the smaller node of an overlapping pair (floor
check passed) and raises the changed flag. -/
lemma rescaleStep_cases (st : List Node × Bool) (p : ℕ × ℕ) :
    rescaleStep st p = st ∨
    ∃ k n, st.1[k]? = some n ∧ MAX_SCALE_DOWN ≤ n.scale * SCALE_FACTOR ∧
      rescaleStep st p = (st.1.set k (shrinkNode n (n.scale * SCALE_FACTOR)), true) := by
  by_cases hji : p.2 ≤ p.1
  · left; simp [rescaleStep, hji]
  · rcases h1 : st.1[p.1]? with _ | n1 <;> rcases h2 : st.1[p.2]? with _ | n2
    · left; simp [rescaleStep, hji, h1, h2]
    · left; simp [rescaleStep, hji, h1, h2]
    · left; simp [rescaleStep, hji, h1, h2]
    · by_cases hov : boxes_overlap (bounding_box n1) (bounding_box n2) MARGIN_DISTANCE
      · by_cases harea : n1.width * n1.height < n2.width * n2.height
        · by_cases hfloor : MAX_SCALE_DOWN ≤ n1.scale * SCALE_FACTOR
          · exact Or.inr ⟨p.1, n1, h1, hfloor,
              by simp [rescaleStep, hji, h1, h2, hov, harea, hfloor]⟩
          · left; simp [rescaleStep, hji, h1, h2, hov, harea, hfloor]
        · by_cases hfloor : MAX_SCALE_DOWN ≤ n2.scale * SCALE_FACTOR
          · exact Or.inr ⟨p.2, n2, h2, hfloor,
              by simp [rescaleStep, hji, h1, h2, hov, harea, hfloor]⟩
          · left; simp [rescaleStep, hji, h1, h2, hov, harea, hfloor]
      · left; simp [rescaleStep, hji, h1, h2, hov]

/-- Pointwise summary of a rescale sweep relative to its input list. -/
def sweepRel (ns out : List Node) : Prop :=
  out.length = ns.length ∧
  ∀ (k : ℕ) (n' : Node), out[k]? = some n' → ∃ n, ns[k]? = some n ∧ rescaled n n'

lemma sweepRel_refl (ns : List Node) : sweepRel ns ns :=
  ⟨rfl, fun _ n' h => ⟨n', h, rescaled_refl n'⟩⟩

lemma sweepRel_trans {a b c : List Node} (h1 : sweepRel a b) (h2 : sweepRel b c) :
    sweepRel a c := by
  refine ⟨h2.1.trans h1.1, fun k n' hk => ?_⟩
  obtain ⟨m, hm, hr2⟩ := h2.2 k n' hk
  obtain ⟨n, hn, hr1⟩ := h1.2 k m hm
  exact ⟨n, hn, rescaled_trans hr1 hr2⟩

lemma sweepRel_set_shrink {cur : List Node} {k : ℕ} {n : Node}
    (hk : cur[k]? = some n) (hfloor : MAX_SCALE_DOWN ≤ n.scale * SCALE_FACTOR) :
    sweepRel cur (cur.set k (shrinkNode n (n.scale * SCALE_FACTOR))) := by
  refine ⟨cur.length_set _ _, fun m n' hm => ?_⟩
  rw [List.getElem?_set] at hm
  by_cases hkm : k = m
  · subst hkm
    have hlt : k < cur.length := by
      by_contra hge
      rw [List.getElem?_eq_none (le_of_not_lt hge)] at hk
      exact Option.noConfusion hk
    rw [if_pos rfl, if_pos hlt] at hm
    exact ⟨n, hk, (Option.some.inj hm) ▸ rescaled_shrink hfloor⟩
  · rw [if_neg hkm] at hm
    exact ⟨n', hm, rescaled_refl n'⟩

lemma sweepRel_rescaleStep {ns : List Node} (st : List Node × Bool) (p : ℕ × ℕ)
    (h : sweepRel ns st.1) : sweepRel ns (rescaleStep st p).1 := by
  rcases rescaleStep_cases st p with heq | ⟨k, n, hk, hfloor, heq⟩
  · rw [heq]; exact h
  · rw [heq]; exact sweepRel_trans h (sweepRel_set_shrink hk hfloor)

/-- Invariant tying the changed flag of a sweep to an actual change. -/
def flagInv (ns : List Node) (st : List Node × Bool) : Prop :=
  (st.2 = false → st.1 = ns) ∧
  (st.2 = true → ∃ (k : ℕ) (n n' : Node), ns[k]? = some n ∧ st.1[k]? = some n' ∧ n'.scale < n.scale)

lemma flagInv_rescaleStep {ns : List Node} (st : List Node × Bool) (p : ℕ × ℕ)
    (hs : sweepRel ns st.1) (h : flagInv ns st) : flagInv ns (rescaleStep st p) := by
  rcases rescaleStep_cases st p with heq | ⟨k, n, hk, hfloor, heq⟩
  · rw [heq]; exact h
  · rw [heq]
    have hlt : k < st.1.length := by
      by_contra hge
      rw [List.getElem?_eq_none (le_of_not_lt hge)] at hk
      exact Option.noConfusion hk
    constructor
    · intro hfalse; exact absurd hfalse (by simp)
    · intro _
      obtain ⟨m, hm, hr⟩ := hs.2 k n hk
      refine ⟨k, m, shrinkNode n (n.scale * SCALE_FACTOR), hm, ?_, ?_⟩
      · rw [List.getElem?_set, if_pos rfl, if_pos hlt]
      · exact lt_of_lt_of_le (shrink_scale_lt hfloor) hr.2.1

lemma foldl_rescale_inv (ns : List Node) (L : List (ℕ × ℕ)) (st : List Node × Bool)
    (h1 : sweepRel ns st.1) (h2 : flagInv ns st) :
    sweepRel ns (L.foldl rescaleStep st).1 ∧ flagInv ns (L.foldl rescaleStep st) := by
  induction L generalizing st with
  | nil => exact ⟨h1, h2⟩
  | cons p L ih =>
    rw [List.foldl_cons]
    exact ih _ (sweepRel_rescaleStep st p h1) (flagInv_rescaleStep st p h1 h2)

/-- Summary of one whole `attempt_rescale` sweep. -/
lemma attempt_rescale_spec (ns : List Node) :
    sweepRel ns (attempt_rescale ns).1 ∧ flagInv ns (attempt_rescale ns) :=
  foldl_rescale_inv ns (pairIdx ns.length) (ns, false) (sweepRel_refl ns)
    ⟨fun _ => rfl, fun h => Bool.noConfusion h⟩

/-- The changed flag is accurate: it is `true` exactly when the sweep changed
the node list. -/
lemma attempt_rescale_flag_iff (ns : List Node) :
    (attempt_rescale ns).2 = true ↔ (attempt_rescale ns).1 ≠ ns := by
  obtain ⟨hs, hfalse, htrue⟩ := attempt_rescale_spec ns
  constructor
  · intro hb
    obtain ⟨k, n, n', hk, hk', hlt⟩ := htrue hb
    intro heq
    rw [heq, hk] at hk'
    exact absurd (Option.some.inj hk' ▸ hlt) (lt_irrefl _)
  · intro hne
    cases hb : (attempt_rescale ns).2 with
    | false => exact absurd (hfalse hb) hne
    | true => rfl

/-- A rescale sweep relates input to output nodes pointwise. -/
lemma attempt_rescale_sweepRel (ns : List Node) : sweepRel ns (attempt_rescale ns).1 :=
  (attempt_rescale_spec ns).1

lemma rescaleLoop_sweepRel (f : ℕ) (ns : List Node) : sweepRel ns (rescaleLoop f ns) := by
  induction f generalizing ns with
  | zero => exact sweepRel_refl ns
  | succ f ih =>
    show sweepRel ns (if (attempt_rescale ns).2 then rescaleLoop f (attempt_rescale ns).1
      else (attempt_rescale ns).1)
    by_cases hb : (attempt_rescale ns).2
    · rw [if_pos hb]
      exact sweepRel_trans (attempt_rescale_sweepRel ns) (ih _)
    · rw [if_neg hb]
      exact attempt_rescale_sweepRel ns

lemma rescaled_x {n n' : Node} (h : rescaled n n') : n'.x = n.x :=
  congrArg (fun t => t.1) h.1

lemma rescaled_y {n n' : Node} (h : rescaled n n') : n'.y = n.y :=
  congrArg (fun t => t.2.1) h.1

lemma rescaled_fixed {n n' : Node} (h : rescaled n n') : n'.fixed = n.fixed :=
  congrArg (fun t => t.2.2.1) h.1

/- Helper development: what the force sweep leaves untouched. -/

/-- The fields the force solver never touches (everything except position). -/
def sizes_of (n : Node) : ℤ × ℤ × ℤ × ℤ × ℚ × Bool :=
  (n.orig_width, n.orig_height, n.width, n.height, n.scale, n.fixed)

lemma moveNode_sizes (ns : List Node) (i : ℕ) (n1 : Node) :
    sizes_of (moveNode ns i n1) = sizes_of n1 := rfl

lemma forceStep_sizes (cur : List Node) (i k : ℕ) :
    ((forceStep cur i)[k]?).map sizes_of = (cur[k]?).map sizes_of := by
  unfold forceStep
  rcases hi : cur[i]? with _ | n1
  · rfl
  · dsimp only
    by_cases hf : n1.fixed = true
    · rw [if_pos hf]
    · rw [if_neg hf, List.getElem?_set]
      by_cases hik : i = k
      · subst hik
        have hlt : i < cur.length := by
          by_contra hge
          rw [List.getElem?_eq_none (le_of_not_lt hge)] at hi
          exact Option.noConfusion hi
        rw [if_pos rfl, if_pos hlt, hi]
        rfl
      · rw [if_neg hik]

lemma foldl_forceStep_sizes (L : List ℕ) (cur : List Node) (k : ℕ) :
    ((L.foldl forceStep cur)[k]?).map sizes_of = (cur[k]?).map sizes_of := by
  induction L generalizing cur with
  | nil => rfl
  | cons i L ih => rw [List.foldl_cons, ih, forceStep_sizes]

lemma apply_forces_sizes (ns : List Node) (k : ℕ) :
    ((apply_forces ns)[k]?).map sizes_of = (ns[k]?).map sizes_of :=
  foldl_forceStep_sizes _ ns k

lemma foldl_forceStep_fixed (L : List ℕ) (cur : List Node) (k : ℕ) (n : Node)
    (h : cur[k]? = some n) (hf : n.fixed = true) :
    (L.foldl forceStep cur)[k]? = some n := by
  induction L generalizing cur with
  | nil => exact h
  | cons i L ih =>
    rw [List.foldl_cons]
    refine ih (forceStep cur i) ?_
    unfold forceStep
    rcases hi : cur[i]? with _ | n1
    · exact h
    · dsimp only
      by_cases hfix : n1.fixed = true
      · rw [if_pos hfix]; exact h
      · rw [if_neg hfix, List.getElem?_set]
        by_cases hik : i = k
        · subst hik
          rw [hi] at h
          rw [Option.some.inj h] at hfix
          exact absurd hf hfix
        · rw [if_neg hik]; exact h

/-- A node marked fixed is left entirely unchanged by a force sweep. -/
lemma apply_forces_fixed (ns : List Node) (k : ℕ) (n : Node)
    (h : ns[k]? = some n) (hf : n.fixed = true) : (apply_forces ns)[k]? = some n :=
  foldl_forceStep_fixed _ ns k n h hf

/- Helper development: scale evolution through the relaxation driver. -/

/-- Pointwise non-increase of scales between two node lists. -/
def scaleLe (ns out : List Node) : Prop :=
  ∀ (k : ℕ) (n' : Node), out[k]? = some n' → ∃ n, ns[k]? = some n ∧ n'.scale ≤ n.scale

lemma scaleLe_refl (ns : List Node) : scaleLe ns ns :=
  fun _ n' h => ⟨n', h, le_refl _⟩

lemma scaleLe_trans {a b c : List Node} (h1 : scaleLe a b) (h2 : scaleLe b c) : scaleLe a c := by
  intro k n' hk
  obtain ⟨m, hm, hs2⟩ := h2 k n' hk
  obtain ⟨n, hn, hs1⟩ := h1 k m hm
  exact ⟨n, hn, hs2.trans hs1⟩

lemma sweepRel_scaleLe {ns out : List Node} (h : sweepRel ns out) : scaleLe ns out :=
  fun k n' hk => by
    obtain ⟨n, hn, hr⟩ := h.2 k n' hk
    exact ⟨n, hn, hr.2.1⟩

lemma apply_forces_scaleLe (ns : List Node) : scaleLe ns (apply_forces ns) := by
  intro k n' hk
  have := apply_forces_sizes ns k
  rw [hk] at this
  rcases hn : ns[k]? with _ | n
  · rw [hn] at this; exact Option.noConfusion this
  · rw [hn] at this
    have hsz : sizes_of n' = sizes_of n := Option.some.inj this
    exact ⟨n, rfl, le_of_eq (congrArg (fun t => t.2.2.2.2.1) hsz)⟩

lemma rescaleLoop_scaleLe (f : ℕ) (ns : List Node) : scaleLe ns (rescaleLoop f ns) :=
  sweepRel_scaleLe (rescaleLoop_sweepRel f ns)

lemma relaxStep_scaleLe (ns : List Node) (it : ℕ) : scaleLe ns (relaxStep ns it) := by
  unfold relaxStep
  by_cases hit : it % 20 = 0
  · simp only [hit, if_true]
    exact scaleLe_trans (apply_forces_scaleLe ns) (rescaleLoop_scaleLe _ _)
  · simp only [hit, if_false]
    exact apply_forces_scaleLe ns

lemma run_relaxation_scaleLe (ns : List Node) : scaleLe ns (run_relaxation ns) := by
  unfold run_relaxation
  generalize List.range RELAXATION_ITERATIONS = L
  induction L generalizing ns with
  | nil => exact scaleLe_refl ns
  | cons it L ih =>
    rw [List.foldl_cons]
    exact scaleLe_trans (relaxStep_scaleLe ns it) (ih _)

/-- The scale interval invariant: positive and at most one. -/
def scalePred (ns : List Node) : Prop := ∀ n ∈ ns, 0 < n.scale ∧ n.scale ≤ 1

lemma mem_of_getElem? {ns : List Node} {k : ℕ} {n : Node} (h : ns[k]? = some n) : n ∈ ns :=
  List.getElem?_mem h

lemma getElem?_of_mem {ns : List Node} {n : Node} (h : n ∈ ns) : ∃ k : ℕ, ns[k]? = some n := by
  obtain ⟨i, hi⟩ := List.get_of_mem h
  exact ⟨i, by rw [List.getElem?_eq_getElem i.isLt]; simpa using congrArg some hi⟩

lemma sweepRel_scalePred {ns out : List Node} (h : sweepRel ns out) (hp : scalePred ns) :
    scalePred out := by
  intro n' hmem
  obtain ⟨k, hk⟩ := getElem?_of_mem hmem
  obtain ⟨n, hn, hr⟩ := h.2 k n' hk
  have hpn := hp n (mem_of_getElem? hn)
  rcases hr.2.2.1 with rfl | hfloor
  · exact hpn
  · refine ⟨lt_of_lt_of_le (by norm_num [MAX_SCALE_DOWN]) hfloor, hr.2.1.trans hpn.2⟩

lemma apply_forces_scalePred {ns : List Node} (hp : scalePred ns) :
    scalePred (apply_forces ns) := by
  intro n' hmem
  obtain ⟨k, hk⟩ := getElem?_of_mem hmem
  have := apply_forces_sizes ns k
  rw [hk] at this
  rcases hn : ns[k]? with _ | n
  · rw [hn] at this; exact Option.noConfusion this
  · rw [hn] at this
    have hsz : sizes_of n' = sizes_of n := Option.some.inj this
    rw [show n'.scale = n.scale from congrArg (fun t => t.2.2.2.2.1) hsz]
    exact hp n (mem_of_getElem? hn)

lemma relaxStep_scalePred {ns : List Node} (it : ℕ) (hp : scalePred ns) :
    scalePred (relaxStep ns it) := by
  unfold relaxStep
  by_cases hit : it % 20 = 0
  · simp only [hit, if_true]
    exact sweepRel_scalePred (rescaleLoop_sweepRel _ _) (apply_forces_scalePred hp)
  · simp only [hit, if_false]
    exact apply_forces_scalePred hp

lemma run_relaxation_scalePred {ns : List Node} (hp : scalePred ns) :
    scalePred (run_relaxation ns) := by
  unfold run_relaxation
  generalize List.range RELAXATION_ITERATIONS = L
  induction L generalizing ns with
  | nil => exact hp
  | cons it L ih =>
    rw [List.foldl_cons]
    exact ih (relaxStep_scalePred it hp)

/- Helper development: the anchor's position through the relaxation driver. -/

/-- The entry at index `k` sits at `(hx, hy)` and is marked fixed. -/
def posFixedAt (k : ℕ) (hx hy : ℝ) (cur : List Node) : Prop :=
  ∃ n', cur[k]? = some n' ∧ n'.x = hx ∧ n'.y = hy ∧ n'.fixed = true

lemma posFixedAt_apply_forces {k : ℕ} {hx hy : ℝ} {ns : List Node}
    (h : posFixedAt k hx hy ns) : posFixedAt k hx hy (apply_forces ns) := by
  obtain ⟨n', hk, hxe, hye, hf⟩ := h
  exact ⟨n', apply_forces_fixed ns k n' hk hf, hxe, hye, hf⟩

lemma posFixedAt_sweepRel {k : ℕ} {hx hy : ℝ} {ns out : List Node}
    (hs : sweepRel ns out) (h : posFixedAt k hx hy ns) : posFixedAt k hx hy out := by
  obtain ⟨n', hk, hxe, hye, hf⟩ := h
  have hlt : k < out.length := by
    rw [hs.1]
    by_contra hge
    rw [List.getElem?_eq_none (le_of_not_lt hge)] at hk
    exact Option.noConfusion hk
  obtain ⟨m, hm⟩ : ∃ m, out[k]? = some m := ⟨out[k], List.getElem?_eq_getElem hlt⟩
  obtain ⟨n, hn, hr⟩ := hs.2 k m hm
  rw [hk] at hn
  rw [← Option.some.inj hn] at hr
  exact ⟨m, hm, (rescaled_x hr).trans hxe, (rescaled_y hr).trans hye,
    (rescaled_fixed hr).trans hf⟩

lemma posFixedAt_relaxStep {k : ℕ} {hx hy : ℝ} {ns : List Node} (it : ℕ)
    (h : posFixedAt k hx hy ns) : posFixedAt k hx hy (relaxStep ns it) := by
  unfold relaxStep
  by_cases hit : it % 20 = 0
  · simp only [hit, if_true]
    exact posFixedAt_sweepRel (rescaleLoop_sweepRel _ _) (posFixedAt_apply_forces h)
  · simp only [hit, if_false]
    exact posFixedAt_apply_forces h

lemma posFixedAt_run_relaxation {k : ℕ} {hx hy : ℝ} {ns : List Node}
    (h : posFixedAt k hx hy ns) : posFixedAt k hx hy (run_relaxation ns) := by
  unfold run_relaxation
  generalize List.range RELAXATION_ITERATIONS = L
  induction L generalizing ns with
  | nil => exact h
  | cons it L ih =>
    rw [List.foldl_cons]
    exact ih (posFixedAt_relaxStep it h)

lemma ratTrunc_intCast (z : ℤ) : ratTrunc (z : ℚ) = z := by
  unfold ratTrunc
  split
  · exact Int.floor_intCast z
  · rw [show -((z:ℚ)) = ((-z : ℤ) : ℚ) by push_cast; ring, Int.floor_intCast]
    ring

lemma ratTrunc_of_nonneg {q : ℚ} (h : 0 ≤ q) : ratTrunc q = ⌊q⌋ := if_pos h

/- The claims. -/

/-- Claim C1, counterexample: the spec says every node's scale always remains
in the interval `[MAX_SCALE_DOWN, 1.0]`, but the initial downscaler applied to
a freshly loaded 2048 × 2048 image sets its scale to 1/4, which is below
`MAX_SCALE_DOWN = 3/4`. -/
theorem scale_interval_counterexample :
    (initial_rescale [mkLoadNode 2048 2048]).map Node.scale = [1/4] ∧
    ¬ MAX_SCALE_DOWN ≤ (1/4 : ℚ) := by
  constructor
  · have hc : MAX_INITIAL_DIM < (mkLoadNode 2048 2048).width ∨
        MAX_INITIAL_DIM < (mkLoadNode 2048 2048).height := by decide
    show [initialRescaleNode (mkLoadNode 2048 2048)].map Node.scale = [1/4]
    simp only [initialRescaleNode, if_pos hc, List.map_cons, List.map_nil]
    norm_num [mkLoadNode, MAX_INITIAL_DIM]
  · norm_num [MAX_SCALE_DOWN]

/-- Claim C1 (amended): over the lifetime of a run every node's scale is
monotonically non-increasing and stays in the interval `(0, 1]`: the initial
downscaler never increases a load-state scale and keeps it positive, every
relaxation step (force sweep plus periodic rescale sweeps) is pointwise
non-increasing on scales, and the whole relaxation phase preserves the
interval `(0, 1]`.  The floor `MAX_SCALE_DOWN` constrains only the overlap
rescaler; the initial downscaler may go below it. -/
theorem scale_lifetime_amended (n : Node) (ns : List Node) (it : ℕ) :
    ((n.scale = 1 ∧ 0 < n.width ∧ 0 < n.height) →
      ((initialRescaleNode n).scale ≤ n.scale ∧ 0 < (initialRescaleNode n).scale)) ∧
    scaleLe ns (relaxStep ns it) ∧
    scaleLe ns (run_relaxation ns) ∧
    (scalePred ns → scalePred (run_relaxation ns)) := by
  refine ⟨?_, relaxStep_scaleLe ns it, run_relaxation_scaleLe ns,
    fun hp => run_relaxation_scalePred hp⟩
  rintro ⟨hs1, hwpos, hhpos⟩
  unfold initialRescaleNode
  by_cases hbig : MAX_INITIAL_DIM < n.width ∨ MAX_INITIAL_DIM < n.height
  · rw [if_pos hbig]
    have hw : (0:ℚ) < (n.width : ℚ) := by exact_mod_cast hwpos
    have hh : (0:ℚ) < (n.height : ℚ) := by exact_mod_cast hhpos
    have hMpos : (0:ℚ) < (MAX_INITIAL_DIM : ℚ) := by norm_num [MAX_INITIAL_DIM]
    have hpos : 0 < min ((MAX_INITIAL_DIM : ℚ) / (n.width : ℚ))
        ((MAX_INITIAL_DIM : ℚ) / (n.height : ℚ)) :=
      lt_min (div_pos hMpos hw) (div_pos hMpos hh)
    refine ⟨?_, hpos⟩
    rw [hs1]
    rcases hbig with hbw | hbh
    · refine le_trans (min_le_left _ _) (le_of_lt ?_)
      rw [div_lt_one hw]
      exact_mod_cast hbw
    · refine le_trans (min_le_right _ _) (le_of_lt ?_)
      rw [div_lt_one hh]
      exact_mod_cast hbh
  · rw [if_neg hbig, hs1]
    norm_num

/-- Claim C1 (amended), witness. -/
theorem scale_lifetime_amended_witness :
    ((initialRescaleNode (mkLoadNode 640 480)).scale ≤ (mkLoadNode 640 480).scale ∧
      0 < (initialRescaleNode (mkLoadNode 640 480)).scale) ∧
    scalePred (run_relaxation [mkLoadNode 2 2]) := by
  constructor
  · exact (scale_lifetime_amended (mkLoadNode 640 480) [] 0).1 ⟨rfl, by decide, by decide⟩
  · refine (scale_lifetime_amended (mkLoadNode 640 480) [mkLoadNode 2 2] 0).2.2.2 ?_
    intro n hn
    rw [List.mem_singleton] at hn
    subst hn
    exact ⟨by norm_num [mkLoadNode], by norm_num [mkLoadNode]⟩

/-- Claim C2, counterexample: the spec's invariant uses rounding to the
nearest integer, but the code uses Python `int()` (truncation): downscaling a
freshly loaded 700 × 600 image gives `600 * (512/700) = 438.857…`, which the
code stores as height 438 while rounding to the nearest integer gives 439. -/
theorem dims_round_counterexample :
    (initial_rescale [mkLoadNode 700 600]).map Node.height = [438] ∧
    round ((600 : ℚ) * (initialRescaleNode (mkLoadNode 700 600)).scale) = 439 ∧
    (438 : ℤ) ≠ 439 := by
  have hc : MAX_INITIAL_DIM < (mkLoadNode 700 600).width ∨
      MAX_INITIAL_DIM < (mkLoadNode 700 600).height := by decide
  refine ⟨?_, ?_, by decide⟩
  · show [initialRescaleNode (mkLoadNode 700 600)].map Node.height = [438]
    simp only [initialRescaleNode, if_pos hc, List.map_cons, List.map_nil]
    norm_num [mkLoadNode, MAX_INITIAL_DIM, ratTrunc]
  · simp only [initialRescaleNode, if_pos hc]
    rw [round_eq]
    norm_num [mkLoadNode, MAX_INITIAL_DIM]

/-- Claim C2 (amended): after loading and after every mutation of a node's
scale by the initial downscaler, the overlap rescaler or (vacuously) the
force solver, the integer dimensions satisfy
`width = trunc(originalWidth * scale)` and
`height = trunc(originalHeight * scale)` where `trunc` is Python `int()`
truncation toward zero, not rounding to the nearest integer. -/
theorem dims_truncation_invariant :
    (∀ w h : ℤ, dims_ok (mkLoadNode w h)) ∧
    (∀ n : Node, dims_ok n → dims_ok (initialRescaleNode n)) ∧
    (∀ ns : List Node, (∀ n ∈ ns, dims_ok n) →
      ∀ (k : ℕ) (n' : Node), (attempt_rescale ns).1[k]? = some n' → dims_ok n') ∧
    (∀ ns : List Node, (∀ n ∈ ns, dims_ok n) →
      ∀ (k : ℕ) (n' : Node), (apply_forces ns)[k]? = some n' → dims_ok n') := by
  refine ⟨?_, ?_, ?_, ?_⟩
  · intro w h
    constructor
    · show w = ratTrunc ((w : ℚ) * 1)
      rw [mul_one, ratTrunc_intCast]
    · show h = ratTrunc ((h : ℚ) * 1)
      rw [mul_one, ratTrunc_intCast]
  · intro n hd
    unfold initialRescaleNode
    by_cases hbig : MAX_INITIAL_DIM < n.width ∨ MAX_INITIAL_DIM < n.height
    · rw [if_pos hbig]
      exact ⟨rfl, rfl⟩
    · rw [if_neg hbig]
      exact hd
  · intro ns hd k n' hk
    obtain ⟨m, hm, hr⟩ := (attempt_rescale_sweepRel ns).2 k n' hk
    exact hr.2.2.2 (hd m (mem_of_getElem? hm))
  · intro ns hd k n' hk
    have := apply_forces_sizes ns k
    rw [hk] at this
    rcases hn : ns[k]? with _ | n
    · rw [hn] at this; exact Option.noConfusion this
    · rw [hn] at this
      have hsz : sizes_of n' = sizes_of n := Option.some.inj this
      have how : n'.orig_width = n.orig_width := congrArg (fun t => t.1) hsz
      have hoh : n'.orig_height = n.orig_height := congrArg (fun t => t.2.1) hsz
      have hww : n'.width = n.width := congrArg (fun t => t.2.2.1) hsz
      have hhh : n'.height = n.height := congrArg (fun t => t.2.2.2.1) hsz
      have hss : n'.scale = n.scale := congrArg (fun t => t.2.2.2.2.1) hsz
      obtain ⟨h1, h2⟩ := hd n (mem_of_getElem? hn)
      exact ⟨by rw [how, hww, hss]; exact h1, by rw [hoh, hhh, hss]; exact h2⟩

/-- Claim C2 (amended), witness. -/
theorem dims_truncation_invariant_witness :
    dims_ok (mkLoadNode 700 600) ∧ dims_ok (initialRescaleNode (mkLoadNode 700 600)) := by
  have h0 : dims_ok (mkLoadNode 700 600) := dims_truncation_invariant.1 700 600
  exact ⟨h0, dims_truncation_invariant.2.1 (mkLoadNode 700 600) h0⟩

/-- Claim C3: for a freshly loaded node with positive dimensions, if either
dimension exceeds `MAX_INITIAL_DIM` the downscaler sets
`scale = min(MAX_INITIAL_DIM/width, MAX_INITIAL_DIM/height)` uniformly and
afterwards both dimensions are at most `MAX_INITIAL_DIM`; a node already
within the cap is left numerically unchanged with scale staying 1; no node is
ever upscaled. -/
theorem initial_downscaler_correct (n : Node)
    (hw : n.width = n.orig_width) (hh : n.height = n.orig_height) (hs : n.scale = 1)
    (hwpos : 0 < n.orig_width) (hhpos : 0 < n.orig_height) :
    ((MAX_INITIAL_DIM < n.orig_width ∨ MAX_INITIAL_DIM < n.orig_height) →
      ((initialRescaleNode n).scale =
        min ((MAX_INITIAL_DIM : ℚ) / (n.width : ℚ)) ((MAX_INITIAL_DIM : ℚ) / (n.height : ℚ)) ∧
       (initialRescaleNode n).width ≤ MAX_INITIAL_DIM ∧
       (initialRescaleNode n).height ≤ MAX_INITIAL_DIM)) ∧
    (¬ (MAX_INITIAL_DIM < n.orig_width ∨ MAX_INITIAL_DIM < n.orig_height) →
      (initialRescaleNode n = n ∧ (initialRescaleNode n).scale = 1)) ∧
    (initialRescaleNode n).width ≤ n.width ∧
    (initialRescaleNode n).height ≤ n.height ∧
    (initialRescaleNode n).scale ≤ n.scale := by
  have hwq : (0:ℚ) < (n.width : ℚ) := by rw [hw]; exact_mod_cast hwpos
  have hhq : (0:ℚ) < (n.height : ℚ) := by rw [hh]; exact_mod_cast hhpos
  have hMpos : (0:ℚ) < (MAX_INITIAL_DIM : ℚ) := by norm_num [MAX_INITIAL_DIM]
  set s : ℚ := min ((MAX_INITIAL_DIM : ℚ) / (n.width : ℚ))
      ((MAX_INITIAL_DIM : ℚ) / (n.height : ℚ)) with hsdef
  have hspos : 0 < s := lt_min (div_pos hMpos hwq) (div_pos hMpos hhq)
  by_cases hbig : MAX_INITIAL_DIM < n.width ∨ MAX_INITIAL_DIM < n.height
  · have hslt : s < 1 := by
      rcases hbig with hb | hb
      · exact lt_of_le_of_lt (min_le_left _ _) (by rw [div_lt_one hwq]; exact_mod_cast hb)
      · exact lt_of_le_of_lt (min_le_right _ _) (by rw [div_lt_one hhq]; exact_mod_cast hb)
    have heq : initialRescaleNode n =
        { n with scale := s, width := ratTrunc ((n.orig_width : ℚ) * s),
                 height := ratTrunc ((n.orig_height : ℚ) * s) } := by
      unfold initialRescaleNode
      rw [if_pos hbig]
    have howq : (0:ℚ) ≤ (n.orig_width : ℚ) := by exact_mod_cast le_of_lt hwpos
    have hohq : (0:ℚ) ≤ (n.orig_height : ℚ) := by exact_mod_cast le_of_lt hhpos
    have hwbound : (n.orig_width : ℚ) * s ≤ (MAX_INITIAL_DIM : ℚ) := by
      calc (n.orig_width : ℚ) * s ≤ (n.orig_width : ℚ) * ((MAX_INITIAL_DIM : ℚ) / (n.width : ℚ)) :=
            mul_le_mul_of_nonneg_left (min_le_left _ _) howq
        _ = (MAX_INITIAL_DIM : ℚ) := by
            rw [← hw]; field_simp
    have hhbound : (n.orig_height : ℚ) * s ≤ (MAX_INITIAL_DIM : ℚ) := by
      calc (n.orig_height : ℚ) * s ≤ (n.orig_height : ℚ) * ((MAX_INITIAL_DIM : ℚ) / (n.height : ℚ)) :=
            mul_le_mul_of_nonneg_left (min_le_right _ _) hohq
        _ = (MAX_INITIAL_DIM : ℚ) := by
            rw [← hh]; field_simp
    have htw : ratTrunc ((n.orig_width : ℚ) * s) ≤ MAX_INITIAL_DIM := by
      rw [ratTrunc_of_nonneg (mul_nonneg howq (le_of_lt hspos))]
      calc ⌊(n.orig_width : ℚ) * s⌋ ≤ ⌊(MAX_INITIAL_DIM : ℚ)⌋ := Int.floor_le_floor hwbound
        _ = MAX_INITIAL_DIM := Int.floor_intCast _
    have hth : ratTrunc ((n.orig_height : ℚ) * s) ≤ MAX_INITIAL_DIM := by
      rw [ratTrunc_of_nonneg (mul_nonneg hohq (le_of_lt hspos))]
      calc ⌊(n.orig_height : ℚ) * s⌋ ≤ ⌊(MAX_INITIAL_DIM : ℚ)⌋ := Int.floor_le_floor hhbound
        _ = MAX_INITIAL_DIM := Int.floor_intCast _
    have htw2 : ratTrunc ((n.orig_width : ℚ) * s) ≤ n.width := by
      rw [ratTrunc_of_nonneg (mul_nonneg howq (le_of_lt hspos))]
      have : (n.orig_width : ℚ) * s ≤ (n.width : ℚ) := by
        rw [hw]
        calc (n.orig_width : ℚ) * s ≤ (n.orig_width : ℚ) * 1 :=
              mul_le_mul_of_nonneg_left (le_of_lt hslt) howq
          _ = (n.orig_width : ℚ) := mul_one _
      calc ⌊(n.orig_width : ℚ) * s⌋ ≤ ⌊(n.width : ℚ)⌋ := Int.floor_le_floor this
        _ = n.width := Int.floor_intCast _
    have hth2 : ratTrunc ((n.orig_height : ℚ) * s) ≤ n.height := by
      rw [ratTrunc_of_nonneg (mul_nonneg hohq (le_of_lt hspos))]
      have : (n.orig_height : ℚ) * s ≤ (n.height : ℚ) := by
        rw [hh]
        calc (n.orig_height : ℚ) * s ≤ (n.orig_height : ℚ) * 1 :=
              mul_le_mul_of_nonneg_left (le_of_lt hslt) hohq
          _ = (n.orig_height : ℚ) := mul_one _
      calc ⌊(n.orig_height : ℚ) * s⌋ ≤ ⌊(n.height : ℚ)⌋ := Int.floor_le_floor this
        _ = n.height := Int.floor_intCast _
    refine ⟨fun _ => ⟨by rw [heq], by rw [heq]; exact htw, by rw [heq]; exact hth⟩,
      fun hcon => absurd (by rwa [hw, hh] at hbig) hcon, ?_, ?_, ?_⟩
    · rw [heq]; exact htw2
    · rw [heq]; exact hth2
    · rw [heq]
      show s ≤ n.scale
      rw [hs]
      exact le_of_lt hslt
  · have heq : initialRescaleNode n = n := by
      unfold initialRescaleNode
      rw [if_neg hbig]
    refine ⟨fun hcon => absurd (by rwa [← hw, ← hh] at hcon) hbig,
      fun _ => ⟨heq, by rw [heq, hs]⟩, by rw [heq], by rw [heq], by rw [heq]⟩

/-- Claim C5: in one invocation of the overlap rescaler, every examined pair
whose margined boxes (rebuilt from the current state) overlap shrinks the
node with the strictly smaller current area by `SCALE_FACTOR` exactly when
the result stays at or above `MAX_SCALE_DOWN`, and otherwise leaves the pair
unchanged; the invocation reports `true` exactly when some node changed; and
the rescaler never sets a scale below `MAX_SCALE_DOWN` (a node's scale is
either untouched or at least the floor afterwards). -/
theorem overlap_rescaler_sweep_spec :
    (∀ (ns : List Node) (c : Bool) (i j : ℕ) (n1 n2 : Node),
      i < j → ns[i]? = some n1 → ns[j]? = some n2 →
      boxes_overlap (bounding_box n1) (bounding_box n2) MARGIN_DISTANCE →
      ((n1.width * n1.height < n2.width * n2.height →
        rescaleStep (ns, c) (i, j) =
          if MAX_SCALE_DOWN ≤ n1.scale * SCALE_FACTOR
          then (ns.set i (shrinkNode n1 (n1.scale * SCALE_FACTOR)), true)
          else (ns, c)) ∧
       (n2.width * n2.height < n1.width * n1.height →
        rescaleStep (ns, c) (i, j) =
          if MAX_SCALE_DOWN ≤ n2.scale * SCALE_FACTOR
          then (ns.set j (shrinkNode n2 (n2.scale * SCALE_FACTOR)), true)
          else (ns, c)))) ∧
    (∀ (ns : List Node) (c : Bool) (i j : ℕ) (n1 n2 : Node),
      i < j → ns[i]? = some n1 → ns[j]? = some n2 →
      ¬ boxes_overlap (bounding_box n1) (bounding_box n2) MARGIN_DISTANCE →
      rescaleStep (ns, c) (i, j) = (ns, c)) ∧
    (∀ ns : List Node, (attempt_rescale ns).2 = true ↔ (attempt_rescale ns).1 ≠ ns) ∧
    (∀ (ns : List Node) (k : ℕ) (n' : Node), (attempt_rescale ns).1[k]? = some n' →
      (∃ n, ns[k]? = some n ∧ n'.scale = n.scale) ∨ MAX_SCALE_DOWN ≤ n'.scale) := by
  refine ⟨?_, ?_, attempt_rescale_flag_iff, ?_⟩
  · intro ns c i j n1 n2 hij h1 h2 hov
    have hji : ¬ ((i, j).2 ≤ (i, j).1) := not_le.mpr hij
    constructor
    · intro harea
      by_cases hfloor : MAX_SCALE_DOWN ≤ n1.scale * SCALE_FACTOR
      · rw [if_pos hfloor]
        simp [rescaleStep, hji, h1, h2, hov, harea, hfloor]
      · rw [if_neg hfloor]
        simp [rescaleStep, hji, h1, h2, hov, harea, hfloor]
    · intro harea
      have harea' : ¬ (n1.width * n1.height < n2.width * n2.height) :=
        not_lt.mpr (le_of_lt harea)
      by_cases hfloor : MAX_SCALE_DOWN ≤ n2.scale * SCALE_FACTOR
      · rw [if_pos hfloor]
        simp [rescaleStep, hji, h1, h2, hov, harea', hfloor]
      · rw [if_neg hfloor]
        simp [rescaleStep, hji, h1, h2, hov, harea', hfloor]
  · intro ns c i j n1 n2 hij h1 h2 hnov
    have hji : ¬ ((i, j).2 ≤ (i, j).1) := not_le.mpr hij
    simp [rescaleStep, hji, h1, h2, hnov]
  · intro ns k n' hk
    obtain ⟨n, hn, hr⟩ := (attempt_rescale_sweepRel ns).2 k n' hk
    rcases hr.2.2.1 with rfl | hfloor
    · exact Or.inl ⟨n', hn, rfl⟩
    · exact Or.inr hfloor

/-- Two overlapping witness nodes for the rescaler pair semantics. -/
def wNode1 : Node :=
  { orig_width := 2, orig_height := 2, width := 2, height := 2,
    scale := 1, x := 0, y := 0, fixed := false }

def wNode2 : Node :=
  { orig_width := 4, orig_height := 4, width := 4, height := 4,
    scale := 1, x := 1, y := 1, fixed := false }

lemma wNodes_overlap :
    boxes_overlap (bounding_box wNode1) (bounding_box wNode2) MARGIN_DISTANCE := by
  norm_num [boxes_overlap, bounding_box, MARGIN_DISTANCE, wNode1, wNode2]

/-- Claim C5, witness. -/
theorem overlap_rescaler_sweep_spec_witness :
    rescaleStep ([wNode1, wNode2], false) (0, 1) =
      if MAX_SCALE_DOWN ≤ wNode1.scale * SCALE_FACTOR
      then ([wNode1, wNode2].set 0 (shrinkNode wNode1 (wNode1.scale * SCALE_FACTOR)), true)
      else ([wNode1, wNode2], false) :=
  (overlap_rescaler_sweep_spec.1 [wNode1, wNode2] false 0 1 wNode1 wNode2
    (by decide) rfl rfl wNodes_overlap).1 (by decide)

/-- Claim C3, witness. -/
theorem initial_downscaler_correct_witness :
    (initialRescaleNode (mkLoadNode 700 600)).width ≤ MAX_INITIAL_DIM ∧
    (initialRescaleNode (mkLoadNode 700 600)).height ≤ MAX_INITIAL_DIM ∧
    (initialRescaleNode (mkLoadNode 700 600)).scale ≤ (mkLoadNode 700 600).scale := by
  obtain ⟨h1, _, _, _, h5⟩ :=
    initial_downscaler_correct (mkLoadNode 700 600) rfl rfl rfl (by decide) (by decide)
  obtain ⟨_, h12, h13⟩ := h1 (by decide)
  exact ⟨h12, h13, h5⟩

/-- Claim C6: the anchor — the node at index 0 of the processing order, which
placement pins to the canvas centre and marks fixed — is excluded from all
force application: its coordinates after the entire relaxation phase equal
its coordinates right after placement, for every layout and every state of
the other nodes. -/
theorem anchor_position_preserved (ns ns₀ : List Node)
    (h : place_initial ns = Except.ok ns₀) :
    ((run_relaxation ns₀)[0]?).map (fun n => (n.x, n.y)) =
      (ns₀[0]?).map (fun n => (n.x, n.y)) := by
  cases ns with
  | nil => exact absurd h (by simp [place_initial])
  | cons n0 rest =>
    unfold place_initial at h
    have h' := Except.ok.inj h
    have h0 : ns₀[0]? = some { n0 with x := (CENTER.1 : ℝ), y := (CENTER.2 : ℝ), fixed := true } := by
      rw [← h']
      simp
    have hfix : posFixedAt 0 ((CENTER.1 : ℝ)) ((CENTER.2 : ℝ)) ns₀ :=
      ⟨_, h0, rfl, rfl, rfl⟩
    obtain ⟨n', hk', hx', hy', _⟩ := posFixedAt_run_relaxation hfix
    rw [hk', h0]
    simp [hx', hy']

/-- The anchored copy of the first witness node. -/
noncomputable def wAnchor : Node :=
  { wNode1 with x := (CENTER.1 : ℝ), y := (CENTER.2 : ℝ), fixed := true }

/-- Claim C6, witness. -/
theorem anchor_position_preserved_witness :
    ((run_relaxation [wAnchor])[0]?).map (fun n => (n.x, n.y)) =
      (([wAnchor] : List Node)[0]?).map (fun n => (n.x, n.y)) :=
  anchor_position_preserved [wNode1] [wAnchor] rfl

/-- Claim C7: on a layout of at least two nodes, placement sets the node at
index 0 exactly to the canvas centre with the fixed (anchor) flag, and the
`(i+1)`-th node of the processing order to the centre displaced by
`INITIAL_RADIUS` at angle `(6π/(n-1)) · i`, for every `i ∈ 0..n-2`. -/
theorem initial_placement_formula (ns ns' : List Node)
    (hlen : 2 ≤ ns.length) (h : place_initial ns = Except.ok ns') :
    ((ns'[0]?).map (fun n => (n.x, n.y, n.fixed)) =
      some ((CENTER.1 : ℝ), (CENTER.2 : ℝ), true)) ∧
    (∀ i : ℕ, i < ns.length - 1 →
      (ns'[i+1]?).map (fun n => (n.x, n.y)) =
        (ns[i+1]?).map (fun _ =>
          ((CENTER.1 : ℝ) + INITIAL_RADIUS *
              Real.cos (6 * Real.pi / ((ns.length - 1 : ℕ) : ℝ) * (i : ℝ)),
           (CENTER.2 : ℝ) + INITIAL_RADIUS *
              Real.sin (6 * Real.pi / ((ns.length - 1 : ℕ) : ℝ) * (i : ℝ))))) := by
  cases ns with
  | nil => exact absurd h (by simp [place_initial])
  | cons n0 rest =>
    unfold place_initial at h
    have h' := Except.ok.inj h
    have hmax : max 1 ((n0 :: rest).length - 1) = (n0 :: rest).length - 1 := by
      refine Nat.max_eq_right ?_
      have : 2 ≤ (n0 :: rest).length := hlen
      omega
    constructor
    · rw [← h']
      simp
    · intro i hi
      rw [← h']
      rw [show ∀ (a : Node) (l : List Node), (a :: l)[i+1]? = l[i]? from fun a l => List.getElem?_cons_succ]
      show ((rest.mapIdx _)[i]?).map _ = _
      rw [List.getElem?_mapIdx]
      have hrest : (n0 :: rest)[i+1]? = rest[i]? := List.getElem?_cons_succ
      rw [hrest]
      rcases hri : rest[i]? with _ | m
      · rfl
      · show some _ = some _
        rw [hmax]

/-- The layout `place_initial` produces on the two witness nodes. -/
noncomputable def wPlaced : List Node :=
  [{ wNode1 with x := (CENTER.1 : ℝ), y := (CENTER.2 : ℝ), fixed := true },
   { wNode2 with
      x := (CENTER.1 : ℝ) + INITIAL_RADIUS *
        Real.cos (6 * Real.pi / ((max 1 (([wNode1, wNode2] : List Node).length - 1) : ℕ) : ℝ) *
          ((0 : ℕ) : ℝ)),
      y := (CENTER.2 : ℝ) + INITIAL_RADIUS *
        Real.sin (6 * Real.pi / ((max 1 (([wNode1, wNode2] : List Node).length - 1) : ℕ) : ℝ) *
          ((0 : ℕ) : ℝ)) }]

/-- Claim C7, witness. -/
theorem initial_placement_formula_witness :
    ((wPlaced[0]?).map (fun n => (n.x, n.y, n.fixed)) =
      some ((CENTER.1 : ℝ), (CENTER.2 : ℝ), true)) ∧
    ((wPlaced[0+1]?).map (fun n => (n.x, n.y)) =
      (([wNode1, wNode2] : List Node)[0+1]?).map (fun _ =>
        ((CENTER.1 : ℝ) + INITIAL_RADIUS *
            Real.cos (6 * Real.pi / ((([wNode1, wNode2] : List Node).length - 1 : ℕ) : ℝ) *
              ((0 : ℕ) : ℝ)),
         (CENTER.2 : ℝ) + INITIAL_RADIUS *
            Real.sin (6 * Real.pi / ((([wNode1, wNode2] : List Node).length - 1 : ℕ) : ℝ) *
              ((0 : ℕ) : ℝ))))) := by
  have happ := initial_placement_formula [wNode1, wNode2] wPlaced (by decide) rfl
  exact ⟨happ.1, happ.2 0 (by decide)⟩

lemma forceStep_of_fixed {cur : List Node} {i : ℕ}
    (h : ∀ n, cur[i]? = some n → n.fixed = true) : forceStep cur i = cur := by
  unfold forceStep
  rcases hi : cur[i]? with _ | n1
  · rfl
  · dsimp only
    rw [if_pos (h n1 hi)]

lemma foldl_forceStep_all_fixed (L : List ℕ) (cur : List Node)
    (h : ∀ i ∈ L, ∀ n, cur[i]? = some n → n.fixed = true) :
    L.foldl forceStep cur = cur := by
  induction L with
  | nil => rfl
  | cons i L ih =>
    rw [List.foldl_cons, forceStep_of_fixed (h i (List.mem_cons_self i L))]
    exact ih (fun j hj => h j (List.mem_cons_of_mem _ hj))

lemma foldl_forceStep_single (L : List ℕ) (ns : List Node) (k₀ : ℕ) (n₀ : Node)
    (hnd : L.Nodup) (hk : ns[k₀]? = some n₀) (hfree : n₀.fixed = false)
    (hoth : ∀ i, i ≠ k₀ → ∀ n, ns[i]? = some n → n.fixed = true) :
    L.foldl forceStep ns = if k₀ ∈ L then ns.set k₀ (moveNode ns k₀ n₀) else ns := by
  induction L with
  | nil => simp
  | cons i L ih =>
    rw [List.foldl_cons]
    by_cases hik : i = k₀
    · subst hik
      have hstep : forceStep ns i = ns.set i (moveNode ns i n₀) := by
        unfold forceStep
        rw [hk]
        dsimp only
        rw [if_neg (by rw [hfree]; exact Bool.false_ne_true)]
      rw [hstep]
      have hni : i ∉ L := (List.nodup_cons.mp hnd).1
      rw [foldl_forceStep_all_fixed L _ ?_]
      · rw [if_pos (List.mem_cons_self i L)]
      · intro j hj n hn
        have hji : j ≠ i := fun he => hni (he ▸ hj)
        rw [List.getElem?_set, if_neg (fun he => hji he.symm)] at hn
        exact hoth j hji n hn
    · rw [forceStep_of_fixed (fun n hn => hoth i hik n hn)]
      rw [ih (List.nodup_cons.mp hnd).2]
      have hk₀i : k₀ ≠ i := fun he => hik he.symm
      by_cases hm : k₀ ∈ L
      · rw [if_pos hm, if_pos (List.mem_cons_of_mem i hm)]
      · have h' : k₀ ∉ i :: L := by
          rw [List.mem_cons]
          rintro (he | hmm)
          · exact hk₀i he
          · exact hm hmm
        rw [if_neg hm, if_neg h']

lemma applyForcesSnapshot_getElem (ns : List Node) (m : ℕ) :
    (applyForcesSnapshot ns)[m]? =
      (ns[m]?).map (fun n => if n.fixed then n else moveNode ns m n) := by
  unfold applyForcesSnapshot
  rw [List.getElem?_mapIdx]

/-- Claim C4 (amended): the reference sweep updates nodes in place, so a
node's force computation does read positions already updated earlier in the
same sweep; the snapshot/deferred-write variant therefore agrees with the
reference only in restricted situations, for instance whenever at most one
node of the layout is non-fixed (so that no node's force can depend on an
already-updated position). -/
theorem snapshot_equiv_single_free_node (ns : List Node)
    (h : ∀ (i j : ℕ) (ni nj : Node), ns[i]? = some ni → ns[j]? = some nj →
      ni.fixed = false → nj.fixed = false → i = j) :
    apply_forces ns = applyForcesSnapshot ns := by
  by_cases hex : ∃ (k : ℕ) (n : Node), ns[k]? = some n ∧ n.fixed = false
  · obtain ⟨k₀, n₀, hk, hfree⟩ := hex
    have hoth : ∀ i, i ≠ k₀ → ∀ n, ns[i]? = some n → n.fixed = true := by
      intro i hne n hi
      rcases hb : n.fixed with _ | _
      · exact absurd (h i k₀ n n₀ hi hk hb hfree) hne
      · rfl
    have hklt : k₀ < ns.length := by
      by_contra hge
      rw [List.getElem?_eq_none (le_of_not_lt hge)] at hk
      exact Option.noConfusion hk
    rw [apply_forces, foldl_forceStep_single (List.range ns.length) ns k₀ n₀
      (List.nodup_range ns.length) hk hfree hoth,
      if_pos (List.mem_range.mpr hklt)]
    apply List.ext_getElem?
    intro m
    rw [applyForcesSnapshot_getElem, List.getElem?_set]
    by_cases hmk : k₀ = m
    · subst hmk
      rw [if_pos rfl, if_pos hklt, hk]
      show _ = some (if n₀.fixed = true then n₀ else moveNode ns k₀ n₀)
      rw [hfree]
      rfl
    · rw [if_neg hmk]
      rcases hm : ns[m]? with _ | n
      · rfl
      · have hfix : n.fixed = true := hoth m (fun he => hmk he.symm) n hm
        show some n = some (if n.fixed = true then n else moveNode ns m n)
        rw [hfix, if_pos rfl]
  · push_neg at hex
    have hall : ∀ i ∈ List.range ns.length, ∀ n, ns[i]? = some n → n.fixed = true := by
      intro i _ n hn
      rcases hb : n.fixed with _ | _
      · exact absurd hb (hex i n hn)
      · rfl
    rw [apply_forces, foldl_forceStep_all_fixed _ _ hall]
    apply List.ext_getElem?
    intro m
    rw [applyForcesSnapshot_getElem]
    rcases hm : ns[m]? with _ | n
    · rfl
    · have hfix : n.fixed = true := by
        rcases hb : n.fixed with _ | _
        · exact absurd hb (hex m n hm)
        · rfl
      show some n = some (if n.fixed = true then n else moveNode ns m n)
      rw [hfix, if_pos rfl]

/-- Claim C4 (amended), witness. -/
theorem snapshot_equiv_single_free_node_witness :
    apply_forces [wAnchor, wNode2] = applyForcesSnapshot [wAnchor, wNode2] := by
  apply snapshot_equiv_single_free_node
  intro i j ni nj hi hj hfi hfj
  match i, hi with
  | 0, hi =>
    have h' : wAnchor = ni := Option.some.inj hi
    rw [← h'] at hfi
    exact Bool.noConfusion (show true = false from hfi)
  | 1, hi =>
    match j, hj with
    | 0, hj =>
      have h' : wAnchor = nj := Option.some.inj hj
      rw [← h'] at hfj
      exact Bool.noConfusion (show true = false from hfj)
    | 1, hj => rfl

/- Step-evaluation lemmas for concrete force computations. -/

lemma repulseStep_self {ns : List Node} {i : ℕ} {n1 : Node} (fc : ℝ × ℝ) :
    repulseStep ns i n1 fc i = fc := by
  unfold repulseStep
  rw [if_pos rfl]

lemma repulseStep_miss {ns : List Node} {i j : ℕ} {n1 n2 : Node} (fc : ℝ × ℝ)
    (hij : i ≠ j) (hj : ns[j]? = some n2)
    (hno : ¬ boxes_overlap (bounding_box n1) (bounding_box n2) MARGIN_DISTANCE) :
    repulseStep ns i n1 fc j = fc := by
  unfold repulseStep
  rw [if_neg hij, hj]
  dsimp only
  rw [if_neg hno]

lemma repulseStep_hit {ns : List Node} {i j : ℕ} {n1 n2 : Node} (fc : ℝ × ℝ)
    (hij : i ≠ j) (hj : ns[j]? = some n2)
    (hov : boxes_overlap (bounding_box n1) (bounding_box n2) MARGIN_DISTANCE) :
    repulseStep ns i n1 fc j =
      (fc.1 + (n1.x - n2.x) * (REPULSION_STRENGTH * (1 /
          (Real.sqrt ((n1.x - n2.x) * (n1.x - n2.x) + (n1.y - n2.y) * (n1.y - n2.y)) + 1/10))),
       fc.2 + (n1.y - n2.y) * (REPULSION_STRENGTH * (1 /
          (Real.sqrt ((n1.x - n2.x) * (n1.x - n2.x) + (n1.y - n2.y) * (n1.y - n2.y)) + 1/10)))) := by
  unfold repulseStep
  rw [if_neg hij, hj]
  dsimp only
  rw [if_pos hov]

lemma clampForce_of_small {f : ℝ × ℝ} (h : f.1 * f.1 + f.2 * f.2 ≤ 128 * 128) :
    clampForce f = f := by
  unfold clampForce
  have h1 : Real.sqrt (f.1 * f.1 + f.2 * f.2) ≤ 128 := by
    calc Real.sqrt (f.1 * f.1 + f.2 * f.2) ≤ Real.sqrt (128 * 128) := Real.sqrt_le_sqrt h
      _ = 128 := by
          rw [show (128:ℝ) * 128 = 128^2 by ring, Real.sqrt_sq]
          norm_num
  rw [if_neg (not_lt.mpr (h1.trans (by norm_num [MAX_MOVEMENT_PER_ITER])))]

/- A three-node layout that separates the in-place force sweep from the
snapshot variant: a far-away anchor, one free node at the canvas centre, a
second free node 3 right and 4 up of the centre (so the repulsion distance is
exactly 5).  The first free node moves away during the sweep, after which its
box no longer overlaps the second one's; the snapshot variant still sees the
overlap. -/

noncomputable def cNode0 : Node :=
  { orig_width := 1, orig_height := 1, width := 1, height := 1,
    scale := 1, x := 0, y := 0, fixed := true }

noncomputable def cNode1 : Node :=
  { orig_width := 3, orig_height := 3, width := 3, height := 3,
    scale := 1, x := 2048, y := 2048, fixed := false }

noncomputable def cNode2 : Node :=
  { orig_width := 3, orig_height := 3, width := 3, height := 3,
    scale := 1, x := 2051, y := 2052, fixed := false }

noncomputable def cNode1' : Node :=
  { orig_width := 3, orig_height := 3, width := 3, height := 3,
    scale := 1, x := 2048 - 100/17, y := 2048 - 400/51, fixed := false }

lemma hno10 : ¬ boxes_overlap (bounding_box cNode1) (bounding_box cNode0) MARGIN_DISTANCE :=
  fun hov => hov (Or.inr (Or.inl (by norm_num [bounding_box, cNode0, cNode1, MARGIN_DISTANCE])))

lemma hno20 : ¬ boxes_overlap (bounding_box cNode2) (bounding_box cNode0) MARGIN_DISTANCE :=
  fun hov => hov (Or.inr (Or.inl (by norm_num [bounding_box, cNode0, cNode2, MARGIN_DISTANCE])))

lemma hov12 : boxes_overlap (bounding_box cNode1) (bounding_box cNode2) MARGIN_DISTANCE := by
  norm_num [boxes_overlap, bounding_box, cNode1, cNode2, MARGIN_DISTANCE]

lemma hov21 : boxes_overlap (bounding_box cNode2) (bounding_box cNode1) MARGIN_DISTANCE := by
  norm_num [boxes_overlap, bounding_box, cNode1, cNode2, MARGIN_DISTANCE]

lemma hno21' : ¬ boxes_overlap (bounding_box cNode2) (bounding_box cNode1') MARGIN_DISTANCE :=
  fun hov => hov (Or.inr (Or.inr (Or.inr
    (by norm_num [bounding_box, cNode1', cNode2, MARGIN_DISTANCE]))))

lemma csqrt12 : Real.sqrt ((cNode1.x - cNode2.x) * (cNode1.x - cNode2.x) +
    (cNode1.y - cNode2.y) * (cNode1.y - cNode2.y)) = 5 := by
  rw [show (cNode1.x - cNode2.x) * (cNode1.x - cNode2.x) +
      (cNode1.y - cNode2.y) * (cNode1.y - cNode2.y) = 5^2 by norm_num [cNode1, cNode2]]
  exact Real.sqrt_sq (by norm_num)

lemma csqrt21 : Real.sqrt ((cNode2.x - cNode1.x) * (cNode2.x - cNode1.x) +
    (cNode2.y - cNode1.y) * (cNode2.y - cNode1.y)) = 5 := by
  rw [show (cNode2.x - cNode1.x) * (cNode2.x - cNode1.x) +
      (cNode2.y - cNode1.y) * (cNode2.y - cNode1.y) = 5^2 by norm_num [cNode1, cNode2]]
  exact Real.sqrt_sq (by norm_num)

lemma cRange3 : List.range ([cNode0, cNode1, cNode2] : List Node).length = [0, 1, 2] := by
  rfl

lemma cRange3' : List.range ([cNode0, cNode1', cNode2] : List Node).length = [0, 1, 2] := by
  rfl

lemma cRep1 : repulsion [cNode0, cNode1, cNode2] 1 cNode1 = (-(100/17), -(400/51)) := by
  unfold repulsion
  rw [cRange3, List.foldl_cons, List.foldl_cons, List.foldl_cons, List.foldl_nil]
  rw [repulseStep_miss (0, 0) (by decide)
    (show ([cNode0, cNode1, cNode2] : List Node)[0]? = some cNode0 from rfl) hno10]
  rw [repulseStep_self]
  rw [repulseStep_hit (0, 0) (by decide)
    (show ([cNode0, cNode1, cNode2] : List Node)[2]? = some cNode2 from rfl) hov12]
  rw [csqrt12]
  simp only [Prod.mk.injEq]
  constructor <;> norm_num [cNode1, cNode2, REPULSION_STRENGTH]

lemma cMove1 : moveNode [cNode0, cNode1, cNode2] 1 cNode1 = cNode1' := by
  have hforce : nodeForce [cNode0, cNode1, cNode2] 1 cNode1 = (-(100/17), -(400/51)) := by
    unfold nodeForce
    dsimp only
    rw [cRep1]
    simp only [Prod.mk.injEq]
    constructor <;>
      norm_num [cNode1, CENTER, TARGET_SIZE, ATTRACTION_RATE, ATTRACTION_WEIGHT, bounding_box]
  unfold moveNode
  rw [hforce, clampForce_of_small (by norm_num)]
  simp only [cNode1, cNode1', Node.mk.injEq]
  norm_num

lemma cRep2in : repulsion [cNode0, cNode1', cNode2] 2 cNode2 = (0, 0) := by
  unfold repulsion
  rw [cRange3', List.foldl_cons, List.foldl_cons, List.foldl_cons, List.foldl_nil]
  rw [repulseStep_miss (0, 0) (by decide)
    (show ([cNode0, cNode1', cNode2] : List Node)[0]? = some cNode0 from rfl) hno20]
  rw [repulseStep_miss (0, 0) (by decide)
    (show ([cNode0, cNode1', cNode2] : List Node)[1]? = some cNode1' from rfl) hno21']
  rw [repulseStep_self]

lemma cMove2in : (moveNode [cNode0, cNode1', cNode2] 2 cNode2).x =
    2051 - 12315/40960000 := by
  have hforce : nodeForce [cNode0, cNode1', cNode2] 2 cNode2 =
      (-(12315/40960000), -(40969/10240000)) := by
    unfold nodeForce
    dsimp only
    rw [cRep2in]
    simp only [Prod.mk.injEq]
    constructor <;>
      norm_num [cNode2, CENTER, TARGET_SIZE, ATTRACTION_RATE, ATTRACTION_WEIGHT, bounding_box]
  unfold moveNode
  rw [hforce, clampForce_of_small (by norm_num)]
  norm_num [cNode2]

lemma cRep2s : repulsion [cNode0, cNode1, cNode2] 2 cNode2 = (100/17, 400/51) := by
  unfold repulsion
  rw [cRange3, List.foldl_cons, List.foldl_cons, List.foldl_cons, List.foldl_nil]
  rw [repulseStep_miss (0, 0) (by decide)
    (show ([cNode0, cNode1, cNode2] : List Node)[0]? = some cNode0 from rfl) hno20]
  rw [repulseStep_hit (0, 0) (by decide)
    (show ([cNode0, cNode1, cNode2] : List Node)[1]? = some cNode1 from rfl) hov21]
  rw [csqrt21, repulseStep_self]
  simp only [Prod.mk.injEq]
  constructor <;> norm_num [cNode1, cNode2, REPULSION_STRENGTH]

lemma cMove2s : (moveNode [cNode0, cNode1, cNode2] 2 cNode2).x =
    2051 + 100/17 - 12315/40960000 := by
  have hforce : nodeForce [cNode0, cNode1, cNode2] 2 cNode2 =
      (100/17 - 12315/40960000, 400/51 - 40969/10240000) := by
    unfold nodeForce
    dsimp only
    rw [cRep2s]
    simp only [Prod.mk.injEq]
    constructor <;>
      norm_num [cNode2, CENTER, TARGET_SIZE, ATTRACTION_RATE, ATTRACTION_WEIGHT, bounding_box]
  unfold moveNode
  rw [hforce, clampForce_of_small (by norm_num)]
  norm_num [cNode2]

/-- Claim C4, counterexample: the claim says a snapshot/deferred-write variant
of the force sweep produces exactly the same positions as the in-place
reference for every layout.  On the explicit three-node layout
`[cNode0, cNode1, cNode2]` the two sweeps disagree on the final x-coordinate
of the third node, because the reference moves the second node first and the
third node's overlap test then reads that updated position. -/
theorem force_sweep_snapshot_counterexample :
    apply_forces [cNode0, cNode1, cNode2] ≠ applyForcesSnapshot [cNode0, cNode1, cNode2] := by
  have h0 : forceStep [cNode0, cNode1, cNode2] 0 = [cNode0, cNode1, cNode2] := by
    unfold forceStep
    rw [show ([cNode0, cNode1, cNode2] : List Node)[0]? = some cNode0 from rfl]
    dsimp only
    rw [if_pos (show cNode0.fixed = true from rfl)]
  have h1 : forceStep [cNode0, cNode1, cNode2] 1 = [cNode0, cNode1', cNode2] := by
    unfold forceStep
    rw [show ([cNode0, cNode1, cNode2] : List Node)[1]? = some cNode1 from rfl]
    dsimp only
    rw [if_neg (show ¬ (cNode1.fixed = true) from fun h => Bool.noConfusion h), cMove1]
    rfl
  have h2 : forceStep [cNode0, cNode1', cNode2] 2 =
      [cNode0, cNode1', cNode2].set 2 (moveNode [cNode0, cNode1', cNode2] 2 cNode2) := by
    unfold forceStep
    rw [show ([cNode0, cNode1', cNode2] : List Node)[2]? = some cNode2 from rfl]
    dsimp only
    rw [if_neg (show ¬ (cNode2.fixed = true) from fun h => Bool.noConfusion h)]
  have hin : ((apply_forces [cNode0, cNode1, cNode2])[2]?).map Node.x =
      some (2051 - 12315/40960000) := by
    rw [apply_forces, cRange3, List.foldl_cons, List.foldl_cons, List.foldl_cons,
      List.foldl_nil, h0, h1, h2]
    rw [show ([cNode0, cNode1', cNode2].set 2
        (moveNode [cNode0, cNode1', cNode2] 2 cNode2))[2]? =
        some (moveNode [cNode0, cNode1', cNode2] 2 cNode2) from rfl]
    rw [Option.map_some', cMove2in]
  have hsn : ((applyForcesSnapshot [cNode0, cNode1, cNode2])[2]?).map Node.x =
      some (2051 + 100/17 - 12315/40960000) := by
    rw [applyForcesSnapshot_getElem]
    rw [show ([cNode0, cNode1, cNode2] : List Node)[2]? = some cNode2 from rfl]
    rw [Option.map_some', Option.map_some']
    rw [show (if cNode2.fixed = true then cNode2
        else moveNode [cNode0, cNode1, cNode2] 2 cNode2) =
        moveNode [cNode0, cNode1, cNode2] 2 cNode2 from
      if_neg (show ¬ (cNode2.fixed = true) from fun h => Bool.noConfusion h)]
    rw [cMove2s]
  intro heq
  rw [heq, hsn] at hin
  have h := Option.some.inj hin
  norm_num at h

/- C10: current-state semantics of the rescale sweep versus a snapshot
variant. -/

/- The snapshot variant of the rescale sweep suggested by reading the claim
negatively: every pair's boxes, areas and floor test are evaluated against
the node states at the start of the sweep, only the writes accumulate.  The
reference `rescaleStep` instead re-reads the current state. -/
open Classical in
noncomputable def rescaleSnapStep (ns : List Node) (st : List Node × Bool) (ij : ℕ × ℕ) :
    List Node × Bool :=
  if ij.2 ≤ ij.1 then st
  else
    match ns[ij.1]?, ns[ij.2]? with
    | some n1, some n2 =>
      if boxes_overlap (bounding_box n1) (bounding_box n2) MARGIN_DISTANCE then
        let k := if n1.width * n1.height < n2.width * n2.height then ij.1 else ij.2
        let smaller := if n1.width * n1.height < n2.width * n2.height then n1 else n2
        let new_scale := smaller.scale * SCALE_FACTOR
        if MAX_SCALE_DOWN ≤ new_scale then (st.1.set k (shrinkNode smaller new_scale), true)
        else st
      else st
    | _, _ => st

/-- The sweep evaluated against a sweep-start snapshot of the nodes. -/
noncomputable def attemptRescaleSnapshot (ns : List Node) : List Node × Bool :=
  (pairIdx ns.length).foldl (rescaleSnapStep ns) (ns, false)

lemma rescaleStep_skip (st : List Node × Bool) {i j : ℕ} (h : j ≤ i) :
    rescaleStep st (i, j) = st := by
  unfold rescaleStep
  rw [if_pos h]

lemma rescaleStep_miss {st : List Node × Bool} {i j : ℕ} {n1 n2 : Node}
    (hij : i < j) (h1 : st.1[i]? = some n1) (h2 : st.1[j]? = some n2)
    (hno : ¬ boxes_overlap (bounding_box n1) (bounding_box n2) MARGIN_DISTANCE) :
    rescaleStep st (i, j) = st := by
  simp [rescaleStep, not_le.mpr hij, h1, h2, hno]

lemma rescaleStep_hit2 {st : List Node × Bool} {i j : ℕ} {n1 n2 : Node}
    (hij : i < j) (h1 : st.1[i]? = some n1) (h2 : st.1[j]? = some n2)
    (hov : boxes_overlap (bounding_box n1) (bounding_box n2) MARGIN_DISTANCE)
    (harea : ¬ (n1.width * n1.height < n2.width * n2.height))
    (hfloor : MAX_SCALE_DOWN ≤ n2.scale * SCALE_FACTOR) :
    rescaleStep st (i, j) = (st.1.set j (shrinkNode n2 (n2.scale * SCALE_FACTOR)), true) := by
  simp [rescaleStep, not_le.mpr hij, h1, h2, hov, harea, hfloor]

lemma rescaleSnapStep_skip (ns : List Node) (st : List Node × Bool) {i j : ℕ} (h : j ≤ i) :
    rescaleSnapStep ns st (i, j) = st := by
  unfold rescaleSnapStep
  rw [if_pos h]

lemma rescaleSnapStep_miss {ns : List Node} {st : List Node × Bool} {i j : ℕ} {n1 n2 : Node}
    (hij : i < j) (h1 : ns[i]? = some n1) (h2 : ns[j]? = some n2)
    (hno : ¬ boxes_overlap (bounding_box n1) (bounding_box n2) MARGIN_DISTANCE) :
    rescaleSnapStep ns st (i, j) = st := by
  simp [rescaleSnapStep, not_le.mpr hij, h1, h2, hno]

lemma rescaleSnapStep_hit2 {ns : List Node} {st : List Node × Bool} {i j : ℕ} {n1 n2 : Node}
    (hij : i < j) (h1 : ns[i]? = some n1) (h2 : ns[j]? = some n2)
    (hov : boxes_overlap (bounding_box n1) (bounding_box n2) MARGIN_DISTANCE)
    (harea : ¬ (n1.width * n1.height < n2.width * n2.height))
    (hfloor : MAX_SCALE_DOWN ≤ n2.scale * SCALE_FACTOR) :
    rescaleSnapStep ns st (i, j) =
      (st.1.set j (shrinkNode n2 (n2.scale * SCALE_FACTOR)), true) := by
  simp [rescaleSnapStep, not_le.mpr hij, h1, h2, hov, harea, hfloor]

/- A three-node layout on one axis: a large node overlapping a medium one,
and a small node that the medium one's box only just reaches.  The first
examined pair shrinks the medium node, after which its box no longer reaches
the small node. -/

noncomputable def sNode0 : Node :=
  { orig_width := 20, orig_height := 20, width := 20, height := 20,
    scale := 1, x := -12, y := 0, fixed := false }

noncomputable def sNode1 : Node :=
  { orig_width := 10, orig_height := 10, width := 10, height := 10,
    scale := 1, x := 0, y := 0, fixed := false }

noncomputable def sNode2 : Node :=
  { orig_width := 4, orig_height := 4, width := 4, height := 4,
    scale := 1, x := 15, y := 0, fixed := false }

noncomputable def sNode1' : Node :=
  { orig_width := 10, orig_height := 10, width := 9, height := 9,
    scale := 19/20, x := 0, y := 0, fixed := false }

noncomputable def sNode2' : Node :=
  { orig_width := 4, orig_height := 4, width := 3, height := 3,
    scale := 19/20, x := 15, y := 0, fixed := false }

lemma sShrink1 : shrinkNode sNode1 (sNode1.scale * SCALE_FACTOR) = sNode1' := by
  simp only [shrinkNode, sNode1, sNode1', SCALE_FACTOR, Node.mk.injEq]
  norm_num [ratTrunc]

lemma sShrink2 : shrinkNode sNode2 (sNode2.scale * SCALE_FACTOR) = sNode2' := by
  simp only [shrinkNode, sNode2, sNode2', SCALE_FACTOR, Node.mk.injEq]
  norm_num [ratTrunc]

lemma sOv01 : boxes_overlap (bounding_box sNode0) (bounding_box sNode1) MARGIN_DISTANCE := by
  norm_num [boxes_overlap, bounding_box, sNode0, sNode1, MARGIN_DISTANCE]

lemma sNo02 : ¬ boxes_overlap (bounding_box sNode0) (bounding_box sNode2) MARGIN_DISTANCE :=
  fun hov => hov (Or.inl (by norm_num [bounding_box, sNode0, sNode2, MARGIN_DISTANCE]))

lemma sNo12' : ¬ boxes_overlap (bounding_box sNode1') (bounding_box sNode2) MARGIN_DISTANCE :=
  fun hov => hov (Or.inl (by norm_num [bounding_box, sNode1', sNode2, MARGIN_DISTANCE]))

lemma sOv12 : boxes_overlap (bounding_box sNode1) (bounding_box sNode2) MARGIN_DISTANCE := by
  norm_num [boxes_overlap, bounding_box, sNode1, sNode2, MARGIN_DISTANCE]

lemma sFloor1 : MAX_SCALE_DOWN ≤ sNode1.scale * SCALE_FACTOR := by
  norm_num [MAX_SCALE_DOWN, SCALE_FACTOR, sNode1]

lemma sFloor2 : MAX_SCALE_DOWN ≤ sNode2.scale * SCALE_FACTOR := by
  norm_num [MAX_SCALE_DOWN, SCALE_FACTOR, sNode2]

lemma sPairs : pairIdx ([sNode0, sNode1, sNode2] : List Node).length =
    [(0,0),(0,1),(0,2),(1,0),(1,1),(1,2),(2,0),(2,1),(2,2)] := rfl

lemma sCurrent : attempt_rescale [sNode0, sNode1, sNode2] = ([sNode0, sNode1', sNode2], true) := by
  unfold attempt_rescale
  rw [sPairs]
  rw [List.foldl_cons, rescaleStep_skip _ (by decide)]
  rw [List.foldl_cons, rescaleStep_hit2 (by decide)
    (show ([sNode0, sNode1, sNode2] : List Node)[0]? = some sNode0 from rfl)
    (show ([sNode0, sNode1, sNode2] : List Node)[1]? = some sNode1 from rfl)
    sOv01 (by decide) sFloor1]
  rw [show ([sNode0, sNode1, sNode2].set 1 (shrinkNode sNode1 (sNode1.scale * SCALE_FACTOR)),
      true) = (([sNode0, sNode1', sNode2] : List Node), true) by rw [sShrink1]; rfl]
  rw [List.foldl_cons, rescaleStep_miss (by decide)
    (show (([sNode0, sNode1', sNode2] : List Node), true).1[0]? = some sNode0 from rfl)
    (show (([sNode0, sNode1', sNode2] : List Node), true).1[2]? = some sNode2 from rfl)
    sNo02]
  rw [List.foldl_cons, rescaleStep_skip _ (by decide)]
  rw [List.foldl_cons, rescaleStep_skip _ (by decide)]
  rw [List.foldl_cons, rescaleStep_miss (by decide)
    (show (([sNode0, sNode1', sNode2] : List Node), true).1[1]? = some sNode1' from rfl)
    (show (([sNode0, sNode1', sNode2] : List Node), true).1[2]? = some sNode2 from rfl)
    sNo12']
  rw [List.foldl_cons, rescaleStep_skip _ (by decide)]
  rw [List.foldl_cons, rescaleStep_skip _ (by decide)]
  rw [List.foldl_cons, rescaleStep_skip _ (by decide)]
  rw [List.foldl_nil]

lemma sSnapshot : attemptRescaleSnapshot [sNode0, sNode1, sNode2] =
    ([sNode0, sNode1', sNode2'], true) := by
  unfold attemptRescaleSnapshot
  rw [sPairs]
  rw [List.foldl_cons, rescaleSnapStep_skip _ _ (by decide)]
  rw [List.foldl_cons, rescaleSnapStep_hit2 (by decide)
    (show ([sNode0, sNode1, sNode2] : List Node)[0]? = some sNode0 from rfl)
    (show ([sNode0, sNode1, sNode2] : List Node)[1]? = some sNode1 from rfl)
    sOv01 (by decide) sFloor1]
  rw [show ([sNode0, sNode1, sNode2].set 1 (shrinkNode sNode1 (sNode1.scale * SCALE_FACTOR)),
      true) = (([sNode0, sNode1', sNode2] : List Node), true) by rw [sShrink1]; rfl]
  rw [List.foldl_cons, rescaleSnapStep_miss (by decide)
    (show ([sNode0, sNode1, sNode2] : List Node)[0]? = some sNode0 from rfl)
    (show ([sNode0, sNode1, sNode2] : List Node)[2]? = some sNode2 from rfl)
    sNo02]
  rw [List.foldl_cons, rescaleSnapStep_skip _ _ (by decide)]
  rw [List.foldl_cons, rescaleSnapStep_skip _ _ (by decide)]
  rw [List.foldl_cons, rescaleSnapStep_hit2 (by decide)
    (show ([sNode0, sNode1, sNode2] : List Node)[1]? = some sNode1 from rfl)
    (show ([sNode0, sNode1, sNode2] : List Node)[2]? = some sNode2 from rfl)
    sOv12 (by decide) sFloor2]
  rw [show ([sNode0, sNode1', sNode2].set 2 (shrinkNode sNode2 (sNode2.scale * SCALE_FACTOR)),
      true) = (([sNode0, sNode1', sNode2'] : List Node), true) by rw [sShrink2]; rfl]
  rw [List.foldl_cons, rescaleSnapStep_skip _ _ (by decide)]
  rw [List.foldl_cons, rescaleSnapStep_skip _ _ (by decide)]
  rw [List.foldl_cons, rescaleSnapStep_skip _ _ (by decide)]
  rw [List.foldl_nil]

/-- Claim C10: within one sweep of the overlap rescaler the boxes of each
pair are rebuilt from the current state, so a shrink applied earlier in the
sweep is visible to every later pair; the sweep is not evaluated against a
sweep-start snapshot.  On the explicit layout `[sNode0, sNode1, sNode2]`,
the pair (0,1) shrinks node 1, the later pair (1,2) then no longer overlaps
and node 2 keeps scale 1, whereas the snapshot variant still shrinks node 2 —
so the two semantics produce different sweeps. -/
theorem rescaler_uses_current_state :
    ((attempt_rescale [sNode0, sNode1, sNode2]).1[2]?).map Node.scale = some 1 ∧
    ((attemptRescaleSnapshot [sNode0, sNode1, sNode2]).1[2]?).map Node.scale = some (19/20) ∧
    (attempt_rescale [sNode0, sNode1, sNode2]).1 ≠
      (attemptRescaleSnapshot [sNode0, sNode1, sNode2]).1 := by
  refine ⟨?_, ?_, ?_⟩
  · rw [sCurrent]
    rfl
  · rw [sSnapshot]
    rfl
  · intro heq
    have h1 : (([sNode0, sNode1', sNode2] : List Node)[2]?).map Node.scale =
        (([sNode0, sNode1', sNode2'] : List Node)[2]?).map Node.scale := by
      rw [show ([sNode0, sNode1', sNode2] : List Node) =
          (attempt_rescale [sNode0, sNode1, sNode2]).1 by rw [sCurrent]]
      rw [show ([sNode0, sNode1', sNode2'] : List Node) =
          (attemptRescaleSnapshot [sNode0, sNode1, sNode2]).1 by rw [sSnapshot]]
      rw [heq]
    have h2 : (1 : ℚ) = 19/20 := by
      have := h1
      rw [show (([sNode0, sNode1', sNode2] : List Node)[2]?).map Node.scale =
          some (1 : ℚ) from rfl] at this
      rw [show (([sNode0, sNode1', sNode2'] : List Node)[2]?).map Node.scale =
          some (19/20 : ℚ) from rfl] at this
      exact Option.some.inj this
    norm_num at h2

/- C8: behaviour on a missing or empty input directory. -/

lemma runTrials_succ (shuffle : ℕ → List Node → List Node) (sizes : List (ℤ × ℤ))
    (t f : ℕ) :
    runTrials shuffle sizes t (f + 1) =
      match runTrial (shuffle t) sizes with
      | Except.error e => Except.error e
      | Except.ok out =>
        match runTrials shuffle sizes (t + 1) f with
        | Except.error e => Except.error e
        | Except.ok rest => Except.ok (out :: rest) := rfl

/-- Claim C8, counterexample: on an existing but empty input directory (no
matching image files) the run dies with an IndexError raised by `nodes[0]` in
`place_initial` during the first trial, not with an IOError as claimed. -/
theorem empty_input_index_error :
    runMain (some []) (fun _ => id) = Except.error RunError.indexError ∧
    (Except.error RunError.indexError : Except RunError (List (List Node))) ≠
      Except.error RunError.ioError := by
  constructor
  · rfl
  · intro h
    exact RunError.noConfusion (Except.error.inj h)

/-- Claim C8 (amended): a missing input directory aborts the run with an
IOError before any trial output is produced; an empty input directory (or one
with no matching image files) also aborts the entire run before any trial
output, but with an IndexError from `nodes[0]` in `place_initial` during the
first trial, not an IOError.  In both cases every configured trial is lost. -/
theorem missing_or_empty_input_amended (shuffle : ℕ → List Node → List Node)
    (hperm : ∀ (t : ℕ) (l : List Node), List.Perm (shuffle t l) l) :
    runMain none shuffle = Except.error RunError.ioError ∧
    runMain (some []) shuffle = Except.error RunError.indexError := by
  refine ⟨rfl, ?_⟩
  have hnil : shuffle 0 [] = [] := List.Perm.eq_nil (hperm 0 [])
  have htrial : runTrial (shuffle 0) [] = Except.error RunError.indexError := by
    unfold runTrial
    rw [show orderNodes (shuffle 0) (initial_rescale (load_images [])) = shuffle 0 [] from rfl]
    rw [hnil]
    rfl
  show runTrials shuffle [] 0 trialCount = Except.error RunError.indexError
  rw [show trialCount = 24 + 1 from rfl, runTrials_succ, htrial]

/-- Claim C8 (amended), witness. -/
theorem missing_or_empty_input_amended_witness :
    runMain none (fun _ => id) = Except.error RunError.ioError ∧
    runMain (some []) (fun _ => id) = Except.error RunError.indexError :=
  missing_or_empty_input_amended (fun _ => id) (fun _ l => List.Perm.refl l)

/- C9: the exported canvas dimensions fit the target size. -/

lemma foldl_min_le_seed (f : Node → ℝ) (l : List Node) (a : ℝ) :
    l.foldl (fun b m => min b (f m)) a ≤ a := by
  induction l generalizing a with
  | nil => exact le_refl a
  | cons m l ih =>
    rw [List.foldl_cons]
    exact le_trans (ih (min a (f m))) (min_le_left _ _)

lemma le_foldl_max_seed (f : Node → ℝ) (l : List Node) (a : ℝ) :
    a ≤ l.foldl (fun b m => max b (f m)) a := by
  induction l generalizing a with
  | nil => exact le_refl a
  | cons m l ih =>
    rw [List.foldl_cons]
    exact le_trans (le_max_left _ _) (ih (max a (f m)))

lemma pyIntR_nonneg {r : ℝ} (h : 0 ≤ r) : 0 ≤ pyIntR r := by
  unfold pyIntR
  rw [if_pos h]
  exact Int.floor_nonneg.mpr h

lemma pyIntR_le {r : ℝ} {z : ℤ} (h : r ≤ (z : ℝ)) : pyIntR r ≤ z := by
  unfold pyIntR
  split
  · calc ⌊r⌋ ≤ ⌊((z : ℤ) : ℝ)⌋ := Int.floor_le_floor h
      _ = z := Int.floor_intCast z
  · rw [Int.floor_neg, neg_neg]
    calc ⌈r⌉ ≤ ⌈((z : ℤ) : ℝ)⌉ := Int.ceil_le_ceil h
      _ = z := Int.ceil_intCast z

lemma canvasW_nonneg (n : Node) (rest : List Node) (hn : 0 ≤ n.width) :
    0 ≤ canvasW n rest := by
  unfold canvasW
  refine pyIntR_nonneg ?_
  have h1 : rest.foldl (fun a m => min a (bounding_box m).x1) (bounding_box n).x1 ≤
      (bounding_box n).x1 := foldl_min_le_seed _ rest _
  have h2 : (bounding_box n).x2 ≤
      rest.foldl (fun a m => max a (bounding_box m).x2) (bounding_box n).x2 :=
    le_foldl_max_seed _ rest _
  have h3 : (bounding_box n).x1 ≤ (bounding_box n).x2 := by
    unfold bounding_box
    have : (0 : ℝ) ≤ (n.width : ℝ) := by exact_mod_cast hn
    dsimp only
    linarith
  linarith

lemma canvasH_nonneg (n : Node) (rest : List Node) (hn : 0 ≤ n.height) :
    0 ≤ canvasH n rest := by
  unfold canvasH
  refine pyIntR_nonneg ?_
  have h1 : rest.foldl (fun a m => min a (bounding_box m).y1) (bounding_box n).y1 ≤
      (bounding_box n).y1 := foldl_min_le_seed _ rest _
  have h2 : (bounding_box n).y2 ≤
      rest.foldl (fun a m => max a (bounding_box m).y2) (bounding_box n).y2 :=
    le_foldl_max_seed _ rest _
  have h3 : (bounding_box n).y1 ≤ (bounding_box n).y2 := by
    unfold bounding_box
    have : (0 : ℝ) ≤ (n.height : ℝ) := by exact_mod_cast hn
    dsimp only
    linarith
  linarith

/-- Claim C9: whenever `compose_final_image` exports a canvas from a layout
of nonnegatively sized nodes, the exported dimensions are at most the target
size on both axes; if the fitting factor is below one the canvas is the tight
box uniformly scaled by `scaleToTarget` (truncated), and otherwise the tight
box is kept unchanged — never upscaled. -/
theorem final_canvas_fits_target (ns : List Node) (dims : ℤ × ℤ)
    (hnn : ∀ n ∈ ns, 0 ≤ n.width ∧ 0 ≤ n.height)
    (h : compose_final_image ns = Except.ok dims) :
    dims.1 ≤ TARGET_SIZE.1 ∧ dims.2 ≤ TARGET_SIZE.2 ∧
    ∀ n rest, ns = n :: rest →
      ((scaleToTarget (canvasW n rest) (canvasH n rest) < 1 →
        dims = (pyIntR ((canvasW n rest : ℝ) * scaleToTarget (canvasW n rest) (canvasH n rest)),
                pyIntR ((canvasH n rest : ℝ) * scaleToTarget (canvasW n rest) (canvasH n rest)))) ∧
       (¬ scaleToTarget (canvasW n rest) (canvasH n rest) < 1 →
        dims = (canvasW n rest, canvasH n rest))) := by
  cases ns with
  | nil => exact absurd h (by simp [compose_final_image])
  | cons n rest =>
    have hw0 : 0 ≤ canvasW n rest := canvasW_nonneg n rest (hnn n (List.mem_cons_self n rest)).1
    have hh0 : 0 ≤ canvasH n rest := canvasH_nonneg n rest (hnn n (List.mem_cons_self n rest)).2
    unfold compose_final_image at h
    dsimp only at h
    by_cases hz : canvasW n rest = 0 ∨ canvasH n rest = 0
    · rw [if_pos hz] at h
      exact absurd h (by simp)
    · rw [if_neg hz] at h
      push_neg at hz
      have hwpos : (0 : ℝ) < (canvasW n rest : ℝ) := by
        have : 0 < canvasW n rest := lt_of_le_of_ne hw0 (Ne.symm hz.1)
        exact_mod_cast this
      have hhpos : (0 : ℝ) < (canvasH n rest : ℝ) := by
        have : 0 < canvasH n rest := lt_of_le_of_ne hh0 (Ne.symm hz.2)
        exact_mod_cast this
      have hTw : (0 : ℝ) < (TARGET_SIZE.1 : ℝ) := by norm_num [TARGET_SIZE]
      by_cases hs : scaleToTarget (canvasW n rest) (canvasH n rest) < 1
      · rw [if_pos hs] at h
        have hd := Except.ok.inj h
        have hb1 : (canvasW n rest : ℝ) * scaleToTarget (canvasW n rest) (canvasH n rest) ≤
            (TARGET_SIZE.1 : ℝ) := by
          calc (canvasW n rest : ℝ) * scaleToTarget (canvasW n rest) (canvasH n rest) ≤
              (canvasW n rest : ℝ) * ((TARGET_SIZE.1 : ℝ) / (canvasW n rest : ℝ)) :=
                mul_le_mul_of_nonneg_left (min_le_left _ _) (le_of_lt hwpos)
            _ = (TARGET_SIZE.1 : ℝ) := by field_simp
        have hb2 : (canvasH n rest : ℝ) * scaleToTarget (canvasW n rest) (canvasH n rest) ≤
            (TARGET_SIZE.2 : ℝ) := by
          calc (canvasH n rest : ℝ) * scaleToTarget (canvasW n rest) (canvasH n rest) ≤
              (canvasH n rest : ℝ) * ((TARGET_SIZE.2 : ℝ) / (canvasH n rest : ℝ)) :=
                mul_le_mul_of_nonneg_left (min_le_right _ _) (le_of_lt hhpos)
            _ = (TARGET_SIZE.2 : ℝ) := by field_simp
        refine ⟨?_, ?_, ?_⟩
        · rw [← hd]
          exact pyIntR_le hb1
        · rw [← hd]
          exact pyIntR_le hb2
        · intro n' rest' hns
          obtain ⟨rfl, rfl⟩ : n' = n ∧ rest' = rest := by
            rw [List.cons.injEq] at hns
            exact ⟨hns.1.symm, hns.2.symm⟩
          exact ⟨fun _ => hd.symm, fun hcon => absurd hs hcon⟩
      · rw [if_neg hs] at h
        have hd := Except.ok.inj h
        have h1le : (1 : ℝ) ≤ scaleToTarget (canvasW n rest) (canvasH n rest) := not_lt.mp hs
        have hwle : canvasW n rest ≤ TARGET_SIZE.1 := by
          have hdiv : (1 : ℝ) ≤ (TARGET_SIZE.1 : ℝ) / (canvasW n rest : ℝ) :=
            le_trans h1le (min_le_left _ _)
          have := (le_div_iff₀ hwpos).mp hdiv
          rw [one_mul] at this
          exact_mod_cast this
        have hhle : canvasH n rest ≤ TARGET_SIZE.2 := by
          have hdiv : (1 : ℝ) ≤ (TARGET_SIZE.2 : ℝ) / (canvasH n rest : ℝ) :=
            le_trans h1le (min_le_right _ _)
          have := (le_div_iff₀ hhpos).mp hdiv
          rw [one_mul] at this
          exact_mod_cast this
        refine ⟨?_, ?_, ?_⟩
        · rw [← hd]
          exact hwle
        · rw [← hd]
          exact hhle
        · intro n' rest' hns
          obtain ⟨rfl, rfl⟩ : n' = n ∧ rest' = rest := by
            rw [List.cons.injEq] at hns
            exact ⟨hns.1.symm, hns.2.symm⟩
          exact ⟨fun hcon => absurd hcon hs, fun _ => hd.symm⟩

/-- A 512 × 384 node used to witness the export bound. -/
noncomputable def exNode9 : Node :=
  { orig_width := 512, orig_height := 384, width := 512, height := 384,
    scale := 1, x := 0, y := 0, fixed := false }

lemma exCanvasW : canvasW exNode9 [] = 512 := by
  unfold canvasW
  rw [List.foldl_nil, List.foldl_nil]
  rw [show (bounding_box exNode9).x2 - (bounding_box exNode9).x1 = (512 : ℝ) by
    norm_num [bounding_box, exNode9]]
  unfold pyIntR
  rw [if_pos (by norm_num)]
  rw [show (512 : ℝ) = ((512 : ℤ) : ℝ) by norm_num, Int.floor_intCast]

lemma exCanvasH : canvasH exNode9 [] = 384 := by
  unfold canvasH
  rw [List.foldl_nil, List.foldl_nil]
  rw [show (bounding_box exNode9).y2 - (bounding_box exNode9).y1 = (384 : ℝ) by
    norm_num [bounding_box, exNode9]]
  unfold pyIntR
  rw [if_pos (by norm_num)]
  rw [show (384 : ℝ) = ((384 : ℤ) : ℝ) by norm_num, Int.floor_intCast]

lemma exCompose : compose_final_image [exNode9] = Except.ok (512, 384) := by
  have hz : ¬ (canvasW exNode9 [] = 0 ∨ canvasH exNode9 [] = 0) := by
    rw [exCanvasW, exCanvasH]
    rintro (h | h) <;> exact absurd h (by norm_num)
  have hs : ¬ scaleToTarget (canvasW exNode9 []) (canvasH exNode9 []) < 1 := by
    rw [exCanvasW, exCanvasH]
    norm_num [scaleToTarget, TARGET_SIZE, min_lt_iff]
  unfold compose_final_image
  dsimp only
  rw [if_neg hz, if_neg hs, exCanvasW, exCanvasH]

/-- Claim C9, witness. -/
theorem final_canvas_fits_target_witness :
    (512 : ℤ) ≤ TARGET_SIZE.1 ∧ (384 : ℤ) ≤ TARGET_SIZE.2 := by
  have h := final_canvas_fits_target [exNode9] (512, 384)
    (by intro n hn
        rw [List.mem_singleton] at hn
        subst hn
        exact ⟨by norm_num [exNode9], by norm_num [exNode9]⟩)
    exCompose
  exact ⟨h.1, h.2.1⟩

end Collage
